import Mathlib

/-!
# DFU bootloader core (`src/examples/usb-cdcacm/src/dfu.c`)

A shallow embedding of the two state machines of `dfu.c` (the DFU protocol
state machine and the flash-programming state machine), followed by the
properties proved about them.

Conventions of the embedding:

* `unsigned` / `uint32_t` values are natural numbers; every C operation that
  can wrap is written with an explicit `% 2 ^ 32`.
* The file-scope variables of `dfu.c` are the fields of `State`; every C
  function takes the state and returns the new one.
* `spiIsBusy(spi)` is an input of the program.  Each call of an entry point
  receives the list of values that the successive `spiIsBusy` reads made
  during that call return (`hw`).  A function that needs a reading when the
  list is exhausted yields `none`: for `ftfl_busy_wait` this is the loop that
  is still spinning.
* `spiBeginErase64` and `spiBeginWrite` are outputs: the calls are appended,
  with their arguments, to `State.spi_cmds`.
* Byte offsets into memory are taken relative to the first byte of
  `dfu_buffer`, in the 32-bit address space of the target.
* A byte that `memcpy` stores outside `dfu_buffer` goes to memory that is not
  part of this model; the store is recorded in `State.stray`.  What a call
  leaves intact is stated for calls that store nothing outside the buffer
  (`copy_inside`), and the theorems about sequences of calls show that
  `State.stray` then stays empty.
* `dfu.h` is not among the sources.  The macro `DFU_TRANSFER_SIZE` is a
  parameter of `dfu_download` and of the initial state, the numeric codes of
  the enumerators are a parameter of `dfu_getstatus`, and the two enumerations
  have the states and status values that `dfu.c` uses.
-/

namespace Dfu

/-! ## Constants -/

/-- Value of `RESCUE_IMAGE_OFFSET`. -/
def RESCUE_IMAGE_OFFSET : Nat := 262144

/-- Value of `ERASE_SIZE`: erase block size in bytes. -/
def ERASE_SIZE : Nat := 65536

/-- Value of `WRITE_SIZE`: number of bytes one write command takes. -/
def WRITE_SIZE : Nat := 256

/-- One octet of the transfer buffer (`uint8_t`). -/
abbrev Byte := Fin 256

/-! ## Data model -/

/-- The anonymous enum of `fl_state`. -/
inductive FlState where
  | flsIDLE
  | flsERASING
  | flsPROGRAMMING
deriving DecidableEq, Repr

/-- Modelled from the spec: the type `dfu_state_t` is declared in `dfu.h`, which
is not among the sources.  The constructors are the eight states of the spec's
data model (Idle, DownloadSync, DownloadBusy, DownloadIdle, ManifestSync,
Manifest, ManifestWaitReset, Error) under the names `dfu.c` uses for them. -/
inductive DfuState where
  | dfuIDLE
  | dfuDNLOAD_SYNC
  | dfuDNBUSY
  | dfuDNLOAD_IDLE
  | dfuMANIFEST_SYNC
  | dfuMANIFEST
  | dfuMANIFEST_WAIT_RESET
  | dfuERROR
deriving DecidableEq, Repr

/-- Modelled from the spec: the type `dfu_status_t` is declared in `dfu.h`, which
is not among the sources.  The constructors are the four status values of the
spec's data model (Ok, ErrAddress, ErrWrite, ErrStalledPacket) under the names
`dfu.c` uses for them. -/
inductive DfuStatus where
  | OK
  | errADDRESS
  | errWRITE
  | errSTALLEDPKT
deriving DecidableEq, Repr

/-- The numeric values of the enumerators of `dfu_state_t` and `dfu_status_t`.
They are declared in `dfu.h`, which is not among the sources, and are a parameter
of `dfu_getstatus`, which stores them in the status report. -/
structure Codes where
  state_code : DfuState → Nat
  status_code : DfuStatus → Nat

/-- The indicator mode last requested through `rgb_mode_idle`, `rgb_mode_error`,
`rgb_mode_done` or `rgb_mode_writing`. -/
inductive RgbMode where
  | idle
  | error
  | done
  | writing
deriving DecidableEq, Repr

/-- A command handed to the flash controller.
`erase64 address` is `spiBeginErase64(spi, address)`;
`write address src count` is `spiBeginWrite(spi, address, p, count)` where `p`
points `src` bytes past the first byte of `dfu_buffer`. -/
inductive SpiCmd where
  | erase64 (address : Nat)
  | write (address : Nat) (src : Nat) (count : Nat)
deriving DecidableEq, Repr

/-- The file-scope variables of `dfu.c`, and the record of its effects on the
outside (`stray`, `spi_cmds`, `rgb`). -/
structure State where
  /-- `static unsigned fl_current_addr`. -/
  fl_current_addr : Nat
  /-- `fl_state`. -/
  fl_state : FlState
  /-- `static dfu_state_t dfu_state`. -/
  dfu_state : DfuState
  /-- `static dfu_status_t dfu_status`. -/
  dfu_status : DfuStatus
  /-- `static unsigned dfu_poll_timeout_ms`. -/
  dfu_poll_timeout_ms : Nat
  /-- The bytes of `static uint32_t dfu_buffer[DFU_TRANSFER_SIZE/4]`. -/
  dfu_buffer : List Byte
  /-- `static uint32_t dfu_buffer_offset`. -/
  dfu_buffer_offset : Nat
  /-- `static uint32_t dfu_bytes_remaining`. -/
  dfu_bytes_remaining : Nat
  /-- `static uint32_t dfu_target_address`. -/
  dfu_target_address : Nat
  /-- Bytes stored by `memcpy` outside `dfu_buffer`, oldest first, as
  (offset from the first byte of `dfu_buffer`, value). -/
  stray : List (Nat × Byte)
  /-- Commands issued to the flash controller, oldest first. -/
  spi_cmds : List SpiCmd
  /-- Indicator mode last requested by `set_state`, if any. -/
  rgb : Option RgbMode
deriving DecidableEq, Repr

/-- Size in bytes of `uint32_t dfu_buffer[DFU_TRANSFER_SIZE/4]`. -/
def buffer_bytes (DFU_TRANSFER_SIZE : Nat) : Nat := 4 * (DFU_TRANSFER_SIZE / 4)

/-- The state after static initialisation (`dfu_init` does nothing). -/
def init_state (DFU_TRANSFER_SIZE : Nat) : State where
  fl_current_addr := 0
  fl_state := .flsIDLE
  dfu_state := .dfuIDLE
  dfu_status := .OK
  dfu_poll_timeout_ms := 1
  dfu_buffer := List.replicate (buffer_bytes DFU_TRANSFER_SIZE) 0
  dfu_buffer_offset := 0
  dfu_bytes_remaining := 0
  dfu_target_address := 0
  stray := []
  spi_cmds := []
  rgb := none

/-! ## The functions of `dfu.c` -/

/-- The function `set_state`. -/
def set_state (s : State) (new_state : DfuState) (new_status : DfuStatus) : State :=
  let mode : RgbMode :=
    if new_state = .dfuIDLE then .idle
    else if new_status ≠ .OK then .error
    else if new_state = .dfuMANIFEST_WAIT_RESET then .done
    else .writing
  { s with rgb := some mode, dfu_state := new_state, dfu_status := new_status }

/-- The function `ftfl_busy_wait`: spin while `spiIsBusy` reads true.  Returns the
readings left; `none` when every reading supplied was busy. -/
def ftfl_busy_wait : List Bool → Option (List Bool)
  | [] => none
  | true :: rest => ftfl_busy_wait rest
  | false :: rest => some rest

/-- The function `ftfl_begin_erase_sector`. -/
def ftfl_begin_erase_sector (s : State) (address : Nat) (hw : List Bool) : Option State :=
  match ftfl_busy_wait hw with
  | none => none
  | some _ =>
    -- `~(ERASE_SIZE - 1)` is the `int` -65536, converted to `uint32_t`: 0xFFFF0000
    let s1 :=
      if address &&& (2 ^ 32 - 1 - (ERASE_SIZE - 1)) = address then
        { s with spi_cmds := s.spi_cmds ++ [SpiCmd.erase64 address] }
      else s
    some { s1 with fl_state := .flsERASING }

/-- The function `ftfl_write_more_bytes`.  `&dfu_buffer[dfu_buffer_offset]` points
`4 * dfu_buffer_offset` bytes past the start of the buffer, `dfu_buffer` being an
array of `uint32_t`. -/
def ftfl_write_more_bytes (s : State) (hw : List Bool) : Option State :=
  let bytes_to_write :=
    if s.dfu_bytes_remaining < WRITE_SIZE then s.dfu_bytes_remaining else WRITE_SIZE
  match ftfl_busy_wait hw with
  | none => none
  | some _ =>
    some { s with
      spi_cmds := s.spi_cmds ++
        [SpiCmd.write s.dfu_target_address ((4 * s.dfu_buffer_offset) % 2 ^ 32) bytes_to_write]
      dfu_bytes_remaining := (s.dfu_bytes_remaining + 2 ^ 32 - bytes_to_write) % 2 ^ 32
      dfu_target_address := (s.dfu_target_address + bytes_to_write) % 2 ^ 32
      dfu_buffer_offset := (s.dfu_buffer_offset + bytes_to_write) % 2 ^ 32 }

/-- The function `ftfl_begin_program_section`. -/
def ftfl_begin_program_section (s : State) (address : Nat) (hw : List Bool) : Option State :=
  ftfl_write_more_bytes { s with dfu_buffer_offset := 0, dfu_target_address := address } hw

/-- The function `address_for_block`. -/
def address_for_block (blockNum : Nat) : Nat :=
  (RESCUE_IMAGE_OFFSET + (blockNum * WRITE_SIZE) % 2 ^ 32) % 2 ^ 32

/-- The function `dfu_getstate`. -/
def dfu_getstate (s : State) : DfuState := s.dfu_state

/-- One byte store of `memcpy`, at `off` bytes past the start of `dfu_buffer`: into
the buffer when `off` lies inside it, recorded in `stray` otherwise.  A store outside
the buffer goes to memory this model does not describe: the record in `stray` says
that it happened, and the variables of a state reached through such a store stand for
nothing in the program.  Properties of what a copy leaves intact are therefore stated
for copies that stay inside the buffer. -/
def store_byte (s : State) (off : Nat) (b : Byte) : State :=
  if off < s.dfu_buffer.length then
    { s with dfu_buffer := s.dfu_buffer.set off b }
  else
    { s with stray := s.stray ++ [(off, b)] }

/-- The call `memcpy(((uint8_t *)dfu_buffer) + dst, data, n)`: bytes `0 .. n-1` of
`data` are stored in increasing order (a byte missing from `data` reads as 0). -/
def memcpy_buffer (s : State) (dst : Nat) (data : List Byte) : Nat → State
  | 0 => s
  | n + 1 => store_byte (memcpy_buffer s dst data n) ((dst + n) % 2 ^ 32) (data.getD n 0)

/-- The function `dfu_download`.  `DFU_TRANSFER_SIZE` comes from the missing `dfu.h`
and is a parameter.  The result is the returned `bool` and the new state. -/
def dfu_download (DFU_TRANSFER_SIZE : Nat) (s : State)
    (blockNum blockLength packetOffset packetLength : Nat) (data : List Byte)
    (hw : List Bool) : Option (Bool × State) :=
  if DFU_TRANSFER_SIZE < (packetOffset + packetLength) % 2 ^ 32 ∨
      blockLength < (packetOffset + packetLength) % 2 ^ 32 then
    -- Overflow!
    some (false, set_state s .dfuERROR .errADDRESS)
  else
    -- Store more data...
    let s1 := memcpy_buffer s packetOffset data packetLength
    if (packetOffset + packetLength) % 2 ^ 32 ≠ blockLength then
      -- Still waiting for more data.
      some (true, s1)
    else if s1.dfu_state ≠ .dfuIDLE ∧ s1.dfu_state ≠ .dfuDNLOAD_IDLE then
      -- Wrong state! Oops.
      some (false, set_state s1 .dfuERROR .errSTALLEDPKT)
    else
      match hw with
      | [] => none
      | busy :: hw1 =>
        if busy = true ∨ s1.fl_state ≠ .flsIDLE then
          -- Flash controller shouldn't be busy now!
          some (false, set_state s1 .dfuERROR .errWRITE)
        else if blockLength = 0 then
          -- End of download
          some (true, set_state s1 .dfuMANIFEST_SYNC .OK)
        else
          -- Start programming a block by erasing the corresponding flash sector
          let s2 := { s1 with
            fl_state := .flsERASING
            fl_current_addr := address_for_block blockNum
            dfu_bytes_remaining := blockLength }
          match ftfl_begin_erase_sector s2 s2.fl_current_addr hw1 with
          | none => none
          | some s3 => some (true, set_state s3 .dfuDNLOAD_SYNC .OK)

/-- The function `fl_state_poll`. -/
def fl_state_poll (s : State) (hw : List Bool) : Option State :=
  match hw with
  | [] => none
  | true :: _ => some s
  | false :: hw1 =>
    match s.fl_state with
    | .flsIDLE => some s
    | .flsERASING =>
      ftfl_begin_program_section { s with fl_state := .flsPROGRAMMING } s.fl_current_addr hw1
    | .flsPROGRAMMING =>
      -- Program more blocks, if applicable
      if s.dfu_bytes_remaining ≠ 0 then ftfl_write_more_bytes s hw1
      else some { s with fl_state := .flsIDLE }

/-- The function `dfu_poll`. -/
def dfu_poll (s : State) (hw : List Bool) : Option State :=
  if s.dfu_state = .dfuDNLOAD_SYNC ∨ s.dfu_state = .dfuDNBUSY then fl_state_poll s hw
  else some s

/-- The `switch` of `dfu_getstatus`: the state transition it performs. -/
def dfu_getstatus_step (s : State) : State :=
  match s.dfu_state with
  | .dfuDNLOAD_SYNC | .dfuDNBUSY =>
    if s.dfu_state = .dfuERROR then
      -- An error occurred inside fl_state_poll();
      s
    else if s.fl_state = .flsIDLE then set_state s .dfuDNLOAD_IDLE .OK
    else set_state s .dfuDNBUSY .OK
  | .dfuMANIFEST_SYNC =>
    { set_state s .dfuMANIFEST .OK with dfu_poll_timeout_ms := 10 }
  | .dfuMANIFEST =>
    { set_state s .dfuMANIFEST_WAIT_RESET .OK with dfu_poll_timeout_ms := 1000 }
  | _ => s

/-- The function `dfu_getstatus`.  `status` is the caller's `uint8_t status[8]`; the
result is the returned `bool`, the new state and the array as left by the call. -/
def dfu_getstatus (c : Codes) (s : State) (status : List Nat) : Bool × State × List Nat :=
  let s1 := dfu_getstatus_step s
  let r0 := status.set 0 (c.status_code s1.dfu_status % 256)
  let r1 := r0.set 1 (s1.dfu_poll_timeout_ms % 256)
  let r2 := r1.set 2 ((s1.dfu_poll_timeout_ms >>> 8) % 256)
  let r3 := r2.set 3 ((s1.dfu_poll_timeout_ms >>> 16) % 256)
  let r4 := r3.set 4 (c.state_code s1.dfu_state % 256)
  let r5 := r4.set 5 0
  (true, s1, r5)

/-- The function `dfu_clrstatus`. -/
def dfu_clrstatus (s : State) : Bool × State :=
  match s.dfu_state with
  | .dfuERROR | .dfuIDLE | .dfuMANIFEST_WAIT_RESET =>
    -- Clear an error
    (true, set_state s .dfuIDLE .OK)
  | _ =>
    -- Unexpected request
    (false, set_state s .dfuERROR .errSTALLEDPKT)

/-- The function `dfu_abort`. -/
def dfu_abort (s : State) : Bool × State :=
  (true, set_state s .dfuIDLE .OK)

/-! ## Runs of several calls -/

/-- The controller reads idle at the (at most two) reads one call makes. -/
def idle_readings : List Bool → Bool
  | false :: false :: _ => true
  | _ => false

/-- Successive `dfu_poll` calls, one per list of readings. -/
def run_polls : State → List (List Bool) → Option State
  | s, [] => some s
  | s, hw :: rest =>
    match dfu_poll s hw with
    | none => none
    | some s1 => run_polls s1 rest

/-- One fragment of a block as the USB stack delivers it: its offset in the block,
its bytes (`packetLength` is their number) and the controller readings during the
call. -/
structure Fragment where
  packetOffset : Nat
  data : List Byte
  hw : List Bool

/-- The fragments are non-empty and cover `[start, stop)` exactly once, in
increasing order. -/
def fragments_partition : Nat → List Fragment → Nat → Prop
  | start, [], stop => start = stop
  | start, f :: rest, stop =>
    f.packetOffset = start ∧ 0 < f.data.length ∧
      fragments_partition (start + f.data.length) rest stop

/-- Successive `dfu_download` calls for the fragments of one block; the result
lists, per call, the returned `bool` and the state the call leaves. -/
def download_trace (DFU_TRANSFER_SIZE blockNum blockLength : Nat) :
    State → List Fragment → Option (List (Bool × State))
  | _, [] => some []
  | s, f :: rest =>
    match dfu_download DFU_TRANSFER_SIZE s blockNum blockLength f.packetOffset
        f.data.length f.data f.hw with
    | none => none
    | some (r, s1) =>
      match download_trace DFU_TRANSFER_SIZE blockNum blockLength s1 rest with
      | none => none
      | some tr => some ((r, s1) :: tr)

/-- The first `j` write commands for a block of `L` bytes at flash address
`address`, as `ftfl_write_more_bytes` issues them: command `k` has target
`address + 256 k` (32-bit), takes its data at `&dfu_buffer[256 k]`, which is
`4 * 256 k` bytes into the buffer, and has length `min 256 (L - 256 k)`. -/
def write_cmds (address L j : Nat) : List SpiCmd :=
  (List.range j).map fun k =>
    SpiCmd.write ((address + 256 * k) % 2 ^ 32) ((4 * (256 * k)) % 2 ^ 32) (min 256 (L - 256 * k))

/-- Closed form of the state `k` polls (controller idle) after a block of `L`
bytes was handed to the Flash SM in state `s0`. -/
def after_polls (s0 : State) (L k : Nat) : State :=
  if k = 0 then s0
  else
    { s0 with
      fl_state := if k ≤ (L + 255) / 256 then .flsPROGRAMMING else .flsIDLE
      spi_cmds := s0.spi_cmds ++ write_cmds s0.fl_current_addr L (min k ((L + 255) / 256))
      dfu_bytes_remaining := L - min (256 * k) L
      dfu_target_address := (s0.fl_current_addr + min (256 * k) L) % 2 ^ 32
      dfu_buffer_offset := min (256 * k) L }

/-- What a caller observes of a `dfu_download` call: the returned `bool`, the DFU
state and status, and the commands issued so far. -/
def observe (r : Option (Bool × State)) : Option (Bool × DfuState × DfuStatus × List SpiCmd) :=
  r.map fun p => (p.1, p.2.dfu_state, p.2.dfu_status, p.2.spi_cmds)

/-! ## Sequences of calls of the entry points -/

/-- One call of an entry point of `dfu.c`, with its arguments and, where the call
reads `spiIsBusy`, the readings it gets. -/
inductive Op where
  | download (blockNum blockLength packetOffset packetLength : Nat) (data : List Byte)
      (hw : List Bool)
  | getstatus (status : List Nat)
  | clrstatus
  | abort
  | poll (hw : List Bool)

/-- The state one call leaves (`none` when the call does not return). -/
def step (DFU_TRANSFER_SIZE : Nat) (c : Codes) (s : State) : Op → Option State
  | .download blockNum blockLength packetOffset packetLength data hw =>
    match dfu_download DFU_TRANSFER_SIZE s blockNum blockLength packetOffset packetLength
        data hw with
    | none => none
    | some r => some r.2
  | .getstatus status => some (dfu_getstatus c s status).2.1
  | .clrstatus => some (dfu_clrstatus s).2
  | .abort => some (dfu_abort s).2
  | .poll hw => dfu_poll s hw

/-- The state a sequence of calls leaves. -/
def run (DFU_TRANSFER_SIZE : Nat) (c : Codes) : State → List Op → Option State
  | s, [] => some s
  | s, op :: rest =>
    match step DFU_TRANSFER_SIZE c s op with
    | none => none
    | some s1 => run DFU_TRANSFER_SIZE c s1 rest

/-- The call stores nothing outside `dfu_buffer`: it is no `dfu_download`, or the
bounds check of `dfu_download` refuses it, so that no copy is made, or
`packetOffset + packetLength` does not wrap around 2^32, so that the copy ends within
the `DFU_TRANSFER_SIZE` bytes the check allows. -/
def copy_inside (DFU_TRANSFER_SIZE : Nat) : Op → Prop
  | .download _ blockLength packetOffset packetLength _ _ =>
    DFU_TRANSFER_SIZE < (packetOffset + packetLength) % 2 ^ 32 ∨
    blockLength < (packetOffset + packetLength) % 2 ^ 32 ∨
    packetOffset + packetLength < 2 ^ 32
  | _ => True

/-- The states some finite sequence of calls leads to from the initial state, no call
of the sequence storing outside `dfu_buffer`. -/
def ReachableInside (DFU_TRANSFER_SIZE : Nat) (c : Codes) (s : State) : Prop :=
  ∃ ops, (∀ op ∈ ops, copy_inside DFU_TRANSFER_SIZE op) ∧
    run DFU_TRANSFER_SIZE c (init_state DFU_TRANSFER_SIZE) ops = some s

/-- The invariant of the reachable states: the status is OK outside Error; the Flash
SM is Idle in DownloadIdle, ManifestSync, Manifest and ManifestWaitReset; the poll
timeout is 1, 10 or 1000 ms. -/
def protocol_invariant (s : State) : Prop :=
  (s.dfu_state ≠ .dfuERROR → s.dfu_status = .OK) ∧
  ((s.dfu_state = .dfuDNLOAD_IDLE ∨ s.dfu_state = .dfuMANIFEST_SYNC ∨
      s.dfu_state = .dfuMANIFEST ∨ s.dfu_state = .dfuMANIFEST_WAIT_RESET) →
    s.fl_state = .flsIDLE) ∧
  (s.dfu_poll_timeout_ms = 1 ∨ s.dfu_poll_timeout_ms = 10 ∨ s.dfu_poll_timeout_ms = 1000)

/-! ## Basic facts -/

@[simp] theorem set_state_dfu_state (s : State) (a : DfuState) (b : DfuStatus) :
    (set_state s a b).dfu_state = a := rfl

@[simp] theorem set_state_dfu_status (s : State) (a : DfuState) (b : DfuStatus) :
    (set_state s a b).dfu_status = b := rfl

@[simp] theorem set_state_fl_state (s : State) (a : DfuState) (b : DfuStatus) :
    (set_state s a b).fl_state = s.fl_state := rfl

@[simp] theorem set_state_fl_current_addr (s : State) (a : DfuState) (b : DfuStatus) :
    (set_state s a b).fl_current_addr = s.fl_current_addr := rfl

@[simp] theorem set_state_dfu_bytes_remaining (s : State) (a : DfuState) (b : DfuStatus) :
    (set_state s a b).dfu_bytes_remaining = s.dfu_bytes_remaining := rfl

@[simp] theorem set_state_dfu_buffer_offset (s : State) (a : DfuState) (b : DfuStatus) :
    (set_state s a b).dfu_buffer_offset = s.dfu_buffer_offset := rfl

@[simp] theorem set_state_dfu_target_address (s : State) (a : DfuState) (b : DfuStatus) :
    (set_state s a b).dfu_target_address = s.dfu_target_address := rfl

@[simp] theorem set_state_dfu_poll_timeout_ms (s : State) (a : DfuState) (b : DfuStatus) :
    (set_state s a b).dfu_poll_timeout_ms = s.dfu_poll_timeout_ms := rfl

@[simp] theorem set_state_dfu_buffer (s : State) (a : DfuState) (b : DfuStatus) :
    (set_state s a b).dfu_buffer = s.dfu_buffer := rfl

@[simp] theorem set_state_stray (s : State) (a : DfuState) (b : DfuStatus) :
    (set_state s a b).stray = s.stray := rfl

@[simp] theorem set_state_spi_cmds (s : State) (a : DfuState) (b : DfuStatus) :
    (set_state s a b).spi_cmds = s.spi_cmds := rfl

/-- A byte store changes the buffer or the stray record, nothing else. -/
theorem store_byte_eq (s : State) (off : Nat) (b : Byte) :
    store_byte s off b =
      { s with dfu_buffer := (store_byte s off b).dfu_buffer,
               stray := (store_byte s off b).stray } := by
  unfold store_byte
  split <;> rfl

/-- The copy changes the buffer or the stray record, nothing else. -/
theorem memcpy_buffer_eq (s : State) (dst : Nat) (data : List Byte) (n : Nat) :
    memcpy_buffer s dst data n =
      { s with dfu_buffer := (memcpy_buffer s dst data n).dfu_buffer,
               stray := (memcpy_buffer s dst data n).stray } := by
  induction n with
  | zero => rfl
  | succ n ih =>
    simp only [memcpy_buffer]
    rw [store_byte_eq, ih]

@[simp] theorem memcpy_buffer_dfu_state (s : State) (dst : Nat) (data : List Byte) (n : Nat) :
    (memcpy_buffer s dst data n).dfu_state = s.dfu_state := by
  rw [memcpy_buffer_eq]

@[simp] theorem memcpy_buffer_dfu_status (s : State) (dst : Nat) (data : List Byte) (n : Nat) :
    (memcpy_buffer s dst data n).dfu_status = s.dfu_status := by
  rw [memcpy_buffer_eq]

@[simp] theorem memcpy_buffer_fl_state (s : State) (dst : Nat) (data : List Byte) (n : Nat) :
    (memcpy_buffer s dst data n).fl_state = s.fl_state := by
  rw [memcpy_buffer_eq]

@[simp] theorem memcpy_buffer_fl_current_addr (s : State) (dst : Nat) (data : List Byte)
    (n : Nat) : (memcpy_buffer s dst data n).fl_current_addr = s.fl_current_addr := by
  rw [memcpy_buffer_eq]

@[simp] theorem memcpy_buffer_dfu_bytes_remaining (s : State) (dst : Nat) (data : List Byte)
    (n : Nat) : (memcpy_buffer s dst data n).dfu_bytes_remaining = s.dfu_bytes_remaining := by
  rw [memcpy_buffer_eq]

@[simp] theorem memcpy_buffer_dfu_buffer_offset (s : State) (dst : Nat) (data : List Byte)
    (n : Nat) : (memcpy_buffer s dst data n).dfu_buffer_offset = s.dfu_buffer_offset := by
  rw [memcpy_buffer_eq]

@[simp] theorem memcpy_buffer_dfu_target_address (s : State) (dst : Nat) (data : List Byte)
    (n : Nat) : (memcpy_buffer s dst data n).dfu_target_address = s.dfu_target_address := by
  rw [memcpy_buffer_eq]

@[simp] theorem memcpy_buffer_dfu_poll_timeout_ms (s : State) (dst : Nat) (data : List Byte)
    (n : Nat) : (memcpy_buffer s dst data n).dfu_poll_timeout_ms = s.dfu_poll_timeout_ms := by
  rw [memcpy_buffer_eq]

@[simp] theorem memcpy_buffer_spi_cmds (s : State) (dst : Nat) (data : List Byte) (n : Nat) :
    (memcpy_buffer s dst data n).spi_cmds = s.spi_cmds := by
  rw [memcpy_buffer_eq]

@[simp] theorem memcpy_buffer_rgb (s : State) (dst : Nat) (data : List Byte) (n : Nat) :
    (memcpy_buffer s dst data n).rgb = s.rgb := by
  rw [memcpy_buffer_eq]

@[simp] theorem memcpy_buffer_zero (s : State) (dst : Nat) (data : List Byte) :
    memcpy_buffer s dst data 0 = s := rfl

/-- A copy whose range lies inside the buffer stores nothing outside it and keeps the
size of the buffer. -/
theorem memcpy_buffer_stays (s : State) (dst : Nat) (data : List Byte) (n : Nat)
    (hin : dst + n ≤ s.dfu_buffer.length) (h32 : dst + n ≤ 2 ^ 32) :
    (memcpy_buffer s dst data n).stray = s.stray ∧
    (memcpy_buffer s dst data n).dfu_buffer.length = s.dfu_buffer.length := by
  induction n with
  | zero => exact ⟨rfl, rfl⟩
  | succ n ih =>
    obtain ⟨ih1, ih2⟩ := ih (by omega) (by omega)
    have hmod : (dst + n) % 2 ^ 32 = dst + n := Nat.mod_eq_of_lt (by omega)
    simp only [memcpy_buffer]
    rw [hmod]
    unfold store_byte
    rw [if_pos (by omega)]
    exact ⟨ih1, by simp only [List.length_set]; exact ih2⟩

/-- The buffer of the initial state has the declared size. -/
theorem init_state_buffer_length (T : Nat) :
    (init_state T).dfu_buffer.length = buffer_bytes T := by
  unfold init_state
  exact List.length_replicate _ _

/-! ## `dfu_download`: the bounds check -/

/-- The bounds check without wrap-around: when `packetOffset + packetLength` stays
below 2^32 and exceeds `DFU_TRANSFER_SIZE` or `blockLength`, the call returns false,
the state is Error/errADDRESS and neither the buffer nor anything outside it is
written. -/
theorem dfu_download_bounds_nowrap (T : Nat) (s : State)
    (blockNum blockLength packetOffset packetLength : Nat) (data : List Byte) (hw : List Bool)
    (hnowrap : packetOffset + packetLength < 2 ^ 32)
    (hover : T < packetOffset + packetLength ∨ blockLength < packetOffset + packetLength) :
    ∃ s', dfu_download T s blockNum blockLength packetOffset packetLength data hw
        = some (false, s') ∧
      s'.dfu_state = .dfuERROR ∧ s'.dfu_status = .errADDRESS ∧
      s'.dfu_buffer = s.dfu_buffer ∧ s'.stray = s.stray := by
  refine ⟨set_state s .dfuERROR .errADDRESS, ?_, rfl, rfl, rfl, rfl⟩
  unfold dfu_download
  rw [Nat.mod_eq_of_lt hnowrap, if_pos hover]

/-- C1, at the failing input `packetOffset = 2^32 - 1`, `packetLength = 1`,
`blockLength = 0` (`DFU_TRANSFER_SIZE = 1024`, initial state, controller idle): the
sum is 2^32, above both limits, yet the 32-bit sum the code tests is 0; the call
returns true, the state becomes ManifestSync/OK and one byte is stored outside the
buffer. -/
theorem dfu_download_wrapped_sum_accepted :
    1024 < 4294967295 + 1 ∧ 0 < 4294967295 + 1 ∧
    ∃ s', dfu_download 1024 (init_state 1024) 0 0 4294967295 1 [7] [false, false]
        = some (true, s') ∧
      s'.dfu_state = .dfuMANIFEST_SYNC ∧ s'.dfu_status = .OK ∧
      s'.stray = [(4294967295, 7)] := by
  refine ⟨by decide, by decide, ?_⟩
  have hlen : (init_state 1024).dfu_buffer.length = 1024 := init_state_buffer_length 1024
  have hm : memcpy_buffer (init_state 1024) 4294967295 [7] 1
      = { init_state 1024 with stray := [(4294967295, 7)] } := by
    show store_byte (init_state 1024) ((4294967295 + 0) % 2 ^ 32) _ = _
    unfold store_byte
    rw [hlen]
    rfl
  refine ⟨set_state { init_state 1024 with stray := [(4294967295, 7)] } .dfuMANIFEST_SYNC .OK,
    ?_, rfl, rfl, rfl⟩
  unfold dfu_download
  rw [hm]
  rfl

/-! ## `dfu_download`: completing a block -/

/-- C3: a `dfu_download` call that passes the bounds check
(`packetOffset + packetLength ≤ DFU_TRANSFER_SIZE`) and completes the block
(`packetOffset + packetLength == blockLength`) returns false with Error/errSTALLEDPKT
when the DFU state is neither Idle nor DownloadIdle; otherwise, when the controller
reads busy or the Flash SM is not Idle, it returns false with Error/errWRITE.  In both
cases no command is issued, `fl_state`, `fl_current_addr` and `dfu_bytes_remaining`
keep their values and nothing is stored outside the buffer.  `DFU_TRANSFER_SIZE` is a
multiple of 4 below 2^32 and the buffer has its declared size, so the copy made by the
call lies inside the buffer. -/
theorem dfu_download_complete_rejected (T : Nat) (s : State)
    (blockNum blockLength packetOffset packetLength : Nat) (data : List Byte) (hw : List Bool)
    (hT32 : T < 2 ^ 32) (hT4 : T % 4 = 0) (hbuf : s.dfu_buffer.length = buffer_bytes T)
    (hbound : packetOffset + packetLength ≤ T)
    (hcomplete : packetOffset + packetLength = blockLength) :
    ((s.dfu_state ≠ .dfuIDLE ∧ s.dfu_state ≠ .dfuDNLOAD_IDLE) →
      ∃ s', dfu_download T s blockNum blockLength packetOffset packetLength data hw
          = some (false, s') ∧
        s'.dfu_state = .dfuERROR ∧ s'.dfu_status = .errSTALLEDPKT ∧
        s'.spi_cmds = s.spi_cmds ∧ s'.fl_state = s.fl_state ∧
        s'.fl_current_addr = s.fl_current_addr ∧
        s'.dfu_bytes_remaining = s.dfu_bytes_remaining ∧ s'.stray = s.stray) ∧
    ((s.dfu_state = .dfuIDLE ∨ s.dfu_state = .dfuDNLOAD_IDLE) →
      ∀ (busy : Bool) (hw1 : List Bool), hw = busy :: hw1 →
        (busy = true ∨ s.fl_state ≠ .flsIDLE) →
      ∃ s', dfu_download T s blockNum blockLength packetOffset packetLength data hw
          = some (false, s') ∧
        s'.dfu_state = .dfuERROR ∧ s'.dfu_status = .errWRITE ∧
        s'.spi_cmds = s.spi_cmds ∧ s'.fl_state = s.fl_state ∧
        s'.fl_current_addr = s.fl_current_addr ∧
        s'.dfu_bytes_remaining = s.dfu_bytes_remaining ∧ s'.stray = s.stray) := by
  have hmod : (packetOffset + packetLength) % 2 ^ 32 = blockLength := by
    rw [← hcomplete]
    exact Nat.mod_eq_of_lt (by omega)
  have hck : ¬ (T < (packetOffset + packetLength) % 2 ^ 32 ∨
      blockLength < (packetOffset + packetLength) % 2 ^ 32) := by
    rw [hmod]
    omega
  have hstray : (memcpy_buffer s packetOffset data packetLength).stray = s.stray :=
    (memcpy_buffer_stays s packetOffset data packetLength
      (by rw [hbuf]; unfold buffer_bytes; omega) (by omega)).1
  constructor
  · intro hst
    refine ⟨set_state (memcpy_buffer s packetOffset data packetLength) .dfuERROR .errSTALLEDPKT,
      ?_, by simp, by simp, by simp, by simp, by simp, by simp, by simpa using hstray⟩
    unfold dfu_download
    rw [if_neg hck]
    simp only [hmod, ne_eq, not_true_eq_false, if_false, memcpy_buffer_dfu_state]
    rw [if_pos hst]
  · intro hst busy hw1 hhw hbusy
    refine ⟨set_state (memcpy_buffer s packetOffset data packetLength) .dfuERROR .errWRITE,
      ?_, by simp, by simp, by simp, by simp, by simp, by simp, by simpa using hstray⟩
    have hst' : ¬ (s.dfu_state ≠ .dfuIDLE ∧ s.dfu_state ≠ .dfuDNLOAD_IDLE) := by
      rcases hst with h | h <;> simp [h]
    unfold dfu_download
    rw [if_neg hck]
    simp only [hmod, ne_eq, not_true_eq_false, if_false, memcpy_buffer_dfu_state,
      memcpy_buffer_fl_state]
    rw [if_neg hst', hhw]
    simp only []
    rw [if_pos hbusy]

/-- Instance of C3: in DownloadBusy a block of 4 bytes sent in one fragment is rejected
with errSTALLEDPKT; in Idle with a busy controller it is rejected with errWRITE. -/
theorem dfu_download_complete_rejected_witness :
    (∃ s', dfu_download 8 { init_state 8 with dfu_state := .dfuDNBUSY } 0 4 0 4
            [1, 2, 3, 4] [] = some (false, s') ∧
        s'.dfu_state = .dfuERROR ∧ s'.dfu_status = .errSTALLEDPKT ∧
        s'.spi_cmds = [] ∧ s'.fl_state = .flsIDLE ∧
        s'.fl_current_addr = 0 ∧ s'.dfu_bytes_remaining = 0 ∧ s'.stray = []) ∧
    (∃ s', dfu_download 8 (init_state 8) 0 4 0 4 [1, 2, 3, 4] [true] = some (false, s') ∧
        s'.dfu_state = .dfuERROR ∧ s'.dfu_status = .errWRITE ∧
        s'.spi_cmds = [] ∧ s'.fl_state = .flsIDLE ∧
        s'.fl_current_addr = 0 ∧ s'.dfu_bytes_remaining = 0 ∧ s'.stray = []) :=
  ⟨(dfu_download_complete_rejected 8 { init_state 8 with dfu_state := .dfuDNBUSY }
      0 4 0 4 [1, 2, 3, 4] [] (by decide) (by decide) (by decide) (by decide)
      (by decide)).1 (by decide),
   (dfu_download_complete_rejected 8 (init_state 8) 0 4 0 4 [1, 2, 3, 4] [true]
      (by decide) (by decide) (by decide) (by decide) (by decide)).2 (by decide) true [] rfl
      (by decide)⟩

/-- C4 as stated fails: from the initial state (DFU Idle, Flash SM Idle) with the
controller reading busy, and from DFU Idle with the Flash SM left Erasing, a
`dfu_download` with `blockLength == 0` returns false and sets Error/errWRITE; from
DownloadBusy it returns false and sets Error/errSTALLEDPKT. -/
theorem dfu_download_zero_length_not_always_manifest :
    observe (dfu_download 1024 (init_state 1024) 0 0 0 0 [] [true])
      = some (false, .dfuERROR, .errWRITE, []) ∧
    observe (dfu_download 1024 { init_state 1024 with fl_state := .flsERASING } 0 0 0 0 []
        [false, false])
      = some (false, .dfuERROR, .errWRITE, []) ∧
    observe (dfu_download 1024 { init_state 1024 with dfu_state := .dfuDNBUSY } 0 0 0 0 []
        [false, false])
      = some (false, .dfuERROR, .errSTALLEDPKT, []) := by
  refine ⟨by decide, by decide, by decide⟩

/-- C4, amended: with the DFU state Idle or DownloadIdle, the Flash SM Idle and the
controller reading not busy, `dfu_download` with `blockLength == 0` (and
`packetOffset = packetLength = 0`) returns true, moves to ManifestSync/OK, issues no
command and leaves the Flash SM fields and the buffer as they were. -/
theorem dfu_download_zero_length_manifest (T : Nat) (s : State) (blockNum : Nat)
    (data : List Byte) (hw1 : List Bool)
    (hst : s.dfu_state = .dfuIDLE ∨ s.dfu_state = .dfuDNLOAD_IDLE)
    (hfl : s.fl_state = .flsIDLE) :
    ∃ s', dfu_download T s blockNum 0 0 0 data (false :: hw1) = some (true, s') ∧
      s'.dfu_state = .dfuMANIFEST_SYNC ∧ s'.dfu_status = .OK ∧
      s'.spi_cmds = s.spi_cmds ∧ s'.fl_state = .flsIDLE ∧
      s'.fl_current_addr = s.fl_current_addr ∧
      s'.dfu_bytes_remaining = s.dfu_bytes_remaining ∧
      s'.dfu_buffer = s.dfu_buffer ∧ s'.stray = s.stray := by
  refine ⟨set_state s .dfuMANIFEST_SYNC .OK, ?_, rfl, rfl, rfl, hfl, rfl, rfl, rfl, rfl⟩
  have hst' : ¬ (s.dfu_state ≠ .dfuIDLE ∧ s.dfu_state ≠ .dfuDNLOAD_IDLE) := by
    rcases hst with h | h <;> simp [h]
  unfold dfu_download
  simp [hst', hfl]

/-- Instance of the amended C4 at the initial state. -/
theorem dfu_download_zero_length_manifest_witness :
    ∃ s', dfu_download 8 (init_state 8) 0 0 0 0 [] [false] = some (true, s') ∧
      s'.dfu_state = .dfuMANIFEST_SYNC ∧ s'.dfu_status = .OK ∧
      s'.spi_cmds = (init_state 8).spi_cmds ∧ s'.fl_state = .flsIDLE ∧
      s'.fl_current_addr = (init_state 8).fl_current_addr ∧
      s'.dfu_bytes_remaining = (init_state 8).dfu_bytes_remaining ∧
      s'.dfu_buffer = (init_state 8).dfu_buffer ∧ s'.stray = (init_state 8).stray :=
  dfu_download_zero_length_manifest 8 (init_state 8) 0 [] [] (by decide) (by decide)

/-! ## `dfu_getstatus` and `dfu_clrstatus` -/

/-- The status report `dfu_getstatus` leaves in an 8-byte array. -/
theorem dfu_getstatus_report (c : Codes) (s : State) (status : List Nat)
    (hlen : status.length = 8) :
    (dfu_getstatus c s status).2.2 =
      [c.status_code (dfu_getstatus_step s).dfu_status % 256,
       (dfu_getstatus_step s).dfu_poll_timeout_ms % 256,
       ((dfu_getstatus_step s).dfu_poll_timeout_ms >>> 8) % 256,
       ((dfu_getstatus_step s).dfu_poll_timeout_ms >>> 16) % 256,
       c.state_code (dfu_getstatus_step s).dfu_state % 256,
       0, status.getD 6 0, status.getD 7 0] := by
  match status, hlen with
  | [_, _, _, _, _, _, _, _], _ => rfl

/-- C8: called in DownloadSync or DownloadBusy, `dfu_getstatus` leaves and reports
state DownloadIdle exactly when the Flash SM is Idle, and DownloadBusy otherwise; the
status is OK in both cases. -/
theorem dfu_getstatus_download_phase (c : Codes) (s : State) (status : List Nat)
    (hlen : status.length = 8)
    (hst : s.dfu_state = .dfuDNLOAD_SYNC ∨ s.dfu_state = .dfuDNBUSY) :
    ((dfu_getstatus c s status).2.1.dfu_state = .dfuDNLOAD_IDLE ↔ s.fl_state = .flsIDLE) ∧
    ((dfu_getstatus c s status).2.1.dfu_state = .dfuDNBUSY ↔ s.fl_state ≠ .flsIDLE) ∧
    (dfu_getstatus c s status).2.1.dfu_status = .OK ∧
    (dfu_getstatus c s status).2.2.getD 4 0
      = c.state_code (dfu_getstatus c s status).2.1.dfu_state % 256 ∧
    (dfu_getstatus c s status).2.2.getD 0 0 = c.status_code .OK % 256 := by
  have hstep : (dfu_getstatus c s status).2.1 = dfu_getstatus_step s := rfl
  have hrep := dfu_getstatus_report c s status hlen
  have hnext : dfu_getstatus_step s =
      if s.fl_state = .flsIDLE then set_state s .dfuDNLOAD_IDLE .OK
      else set_state s .dfuDNBUSY .OK := by
    unfold dfu_getstatus_step
    rcases hst with h | h <;> simp [h]
  rw [hrep, hstep, hnext]
  by_cases hfl : s.fl_state = .flsIDLE <;> simp [hfl]

/-- Instance of C8: DownloadSync with the Flash SM still Erasing reports
DownloadBusy. -/
theorem dfu_getstatus_download_phase_witness :
    ((dfu_getstatus ⟨fun _ => 0, fun _ => 0⟩
        { init_state 8 with dfu_state := .dfuDNLOAD_SYNC, fl_state := .flsERASING }
        [0, 0, 0, 0, 0, 0, 0, 0]).2.1.dfu_state = .dfuDNBUSY ↔
      FlState.flsERASING ≠ .flsIDLE) :=
  (dfu_getstatus_download_phase ⟨fun _ => 0, fun _ => 0⟩
    { init_state 8 with dfu_state := .dfuDNLOAD_SYNC, fl_state := .flsERASING }
    [0, 0, 0, 0, 0, 0, 0, 0] rfl (Or.inl rfl)).2.1

/-- C10: `dfu_clrstatus` returns true exactly when the DFU state on entry is Error,
Idle or ManifestWaitReset, and then leaves Idle/OK; from DownloadSync, DownloadBusy,
DownloadIdle, ManifestSync and Manifest it returns false and leaves
Error/errSTALLEDPKT. -/
theorem dfu_clrstatus_outcome (s : State) :
    ((dfu_clrstatus s).1 = true ↔
      (s.dfu_state = .dfuERROR ∨ s.dfu_state = .dfuIDLE ∨
        s.dfu_state = .dfuMANIFEST_WAIT_RESET)) ∧
    ((dfu_clrstatus s).1 = true →
      (dfu_clrstatus s).2.dfu_state = .dfuIDLE ∧ (dfu_clrstatus s).2.dfu_status = .OK) ∧
    ((s.dfu_state = .dfuDNLOAD_SYNC ∨ s.dfu_state = .dfuDNBUSY ∨
        s.dfu_state = .dfuDNLOAD_IDLE ∨ s.dfu_state = .dfuMANIFEST_SYNC ∨
        s.dfu_state = .dfuMANIFEST) →
      (dfu_clrstatus s).1 = false ∧ (dfu_clrstatus s).2.dfu_state = .dfuERROR ∧
        (dfu_clrstatus s).2.dfu_status = .errSTALLEDPKT) := by
  unfold dfu_clrstatus
  cases h : s.dfu_state <;> simp

/-- Instance of C10: from Error the call succeeds and leaves Idle/OK; from Manifest it
fails and leaves Error/errSTALLEDPKT. -/
theorem dfu_clrstatus_outcome_witness :
    ((dfu_clrstatus { init_state 8 with dfu_state := .dfuERROR, dfu_status := .errWRITE }).2.dfu_state
        = .dfuIDLE ∧
      (dfu_clrstatus { init_state 8 with dfu_state := .dfuERROR, dfu_status := .errWRITE }).2.dfu_status
        = .OK) ∧
    ((dfu_clrstatus { init_state 8 with dfu_state := .dfuMANIFEST }).1 = false ∧
      (dfu_clrstatus { init_state 8 with dfu_state := .dfuMANIFEST }).2.dfu_state = .dfuERROR ∧
      (dfu_clrstatus { init_state 8 with dfu_state := .dfuMANIFEST }).2.dfu_status
        = .errSTALLEDPKT) :=
  ⟨(dfu_clrstatus_outcome
      { init_state 8 with dfu_state := .dfuERROR, dfu_status := .errWRITE }).2.1 (by decide),
   (dfu_clrstatus_outcome { init_state 8 with dfu_state := .dfuMANIFEST }).2.2 (by decide)⟩

/-- C9: the poll timeout is 1 ms initially; `dfu_getstatus` in ManifestSync moves to
Manifest/OK and reports 10 ms, in Manifest it moves to ManifestWaitReset/OK and
reports 1000 ms (bytes 1..3 of the report, little-endian); in Idle, DownloadIdle,
ManifestWaitReset and Error it leaves the whole state, so state, status and timeout,
as it was. -/
theorem dfu_getstatus_manifest_timeouts (T : Nat) (c : Codes) (s : State) (status : List Nat)
    (hlen : status.length = 8) :
    (init_state T).dfu_poll_timeout_ms = 1 ∧
    (s.dfu_state = .dfuMANIFEST_SYNC →
      (dfu_getstatus c s status).2.1.dfu_state = .dfuMANIFEST ∧
      (dfu_getstatus c s status).2.1.dfu_status = .OK ∧
      (dfu_getstatus c s status).2.1.dfu_poll_timeout_ms = 10 ∧
      ((dfu_getstatus c s status).2.2.drop 1).take 3 = [10, 0, 0]) ∧
    (s.dfu_state = .dfuMANIFEST →
      (dfu_getstatus c s status).2.1.dfu_state = .dfuMANIFEST_WAIT_RESET ∧
      (dfu_getstatus c s status).2.1.dfu_status = .OK ∧
      (dfu_getstatus c s status).2.1.dfu_poll_timeout_ms = 1000 ∧
      ((dfu_getstatus c s status).2.2.drop 1).take 3 = [232, 3, 0]) ∧
    ((s.dfu_state = .dfuIDLE ∨ s.dfu_state = .dfuDNLOAD_IDLE ∨
        s.dfu_state = .dfuMANIFEST_WAIT_RESET ∨ s.dfu_state = .dfuERROR) →
      (dfu_getstatus c s status).2.1 = s) := by
  have hstep : (dfu_getstatus c s status).2.1 = dfu_getstatus_step s := rfl
  have hrep := dfu_getstatus_report c s status hlen
  refine ⟨rfl, ?_, ?_, ?_⟩
  · intro h
    have hs : dfu_getstatus_step s
        = { set_state s .dfuMANIFEST .OK with dfu_poll_timeout_ms := 10 } := by
      unfold dfu_getstatus_step
      simp [h]
    have ht : (dfu_getstatus_step s).dfu_poll_timeout_ms = 10 := by rw [hs]
    refine ⟨by rw [hstep, hs]; rfl, by rw [hstep, hs]; rfl, by rw [hstep, hs], ?_⟩
    rw [hrep]
    show [(dfu_getstatus_step s).dfu_poll_timeout_ms % 256,
      ((dfu_getstatus_step s).dfu_poll_timeout_ms >>> 8) % 256,
      ((dfu_getstatus_step s).dfu_poll_timeout_ms >>> 16) % 256] = _
    rw [ht]
    decide
  · intro h
    have hs : dfu_getstatus_step s
        = { set_state s .dfuMANIFEST_WAIT_RESET .OK with dfu_poll_timeout_ms := 1000 } := by
      unfold dfu_getstatus_step
      simp [h]
    have ht : (dfu_getstatus_step s).dfu_poll_timeout_ms = 1000 := by rw [hs]
    refine ⟨by rw [hstep, hs]; rfl, by rw [hstep, hs]; rfl, by rw [hstep, hs], ?_⟩
    rw [hrep]
    show [(dfu_getstatus_step s).dfu_poll_timeout_ms % 256,
      ((dfu_getstatus_step s).dfu_poll_timeout_ms >>> 8) % 256,
      ((dfu_getstatus_step s).dfu_poll_timeout_ms >>> 16) % 256] = _
    rw [ht]
    decide
  · intro h
    rw [hstep]
    unfold dfu_getstatus_step
    rcases h with h | h | h | h <;> simp [h]

/-- Instance of C9: from ManifestSync the call moves to Manifest/OK and reports
10 ms; from Manifest it moves to ManifestWaitReset/OK and reports 1000 ms. -/
theorem dfu_getstatus_manifest_timeouts_witness :
    ((dfu_getstatus ⟨fun _ => 0, fun _ => 0⟩
          { init_state 8 with dfu_state := .dfuMANIFEST_SYNC }
          [0, 0, 0, 0, 0, 0, 0, 0]).2.1.dfu_state = .dfuMANIFEST ∧
      (dfu_getstatus ⟨fun _ => 0, fun _ => 0⟩
          { init_state 8 with dfu_state := .dfuMANIFEST_SYNC }
          [0, 0, 0, 0, 0, 0, 0, 0]).2.1.dfu_status = .OK ∧
      (dfu_getstatus ⟨fun _ => 0, fun _ => 0⟩
          { init_state 8 with dfu_state := .dfuMANIFEST_SYNC }
          [0, 0, 0, 0, 0, 0, 0, 0]).2.1.dfu_poll_timeout_ms = 10 ∧
      ((dfu_getstatus ⟨fun _ => 0, fun _ => 0⟩
          { init_state 8 with dfu_state := .dfuMANIFEST_SYNC }
          [0, 0, 0, 0, 0, 0, 0, 0]).2.2.drop 1).take 3 = [10, 0, 0]) ∧
    ((dfu_getstatus ⟨fun _ => 0, fun _ => 0⟩
          { init_state 8 with dfu_state := .dfuMANIFEST }
          [0, 0, 0, 0, 0, 0, 0, 0]).2.1.dfu_state = .dfuMANIFEST_WAIT_RESET ∧
      (dfu_getstatus ⟨fun _ => 0, fun _ => 0⟩
          { init_state 8 with dfu_state := .dfuMANIFEST }
          [0, 0, 0, 0, 0, 0, 0, 0]).2.1.dfu_status = .OK ∧
      (dfu_getstatus ⟨fun _ => 0, fun _ => 0⟩
          { init_state 8 with dfu_state := .dfuMANIFEST }
          [0, 0, 0, 0, 0, 0, 0, 0]).2.1.dfu_poll_timeout_ms = 1000 ∧
      ((dfu_getstatus ⟨fun _ => 0, fun _ => 0⟩
          { init_state 8 with dfu_state := .dfuMANIFEST }
          [0, 0, 0, 0, 0, 0, 0, 0]).2.2.drop 1).take 3 = [232, 3, 0]) :=
  ⟨(dfu_getstatus_manifest_timeouts 8 ⟨fun _ => 0, fun _ => 0⟩
      { init_state 8 with dfu_state := .dfuMANIFEST_SYNC }
      [0, 0, 0, 0, 0, 0, 0, 0] rfl).2.1 rfl,
   (dfu_getstatus_manifest_timeouts 8 ⟨fun _ => 0, fun _ => 0⟩
      { init_state 8 with dfu_state := .dfuMANIFEST }
      [0, 0, 0, 0, 0, 0, 0, 0] rfl).2.2.1 rfl⟩

/-! ## `dfu_download`: assembling a block -/

/-- Overwriting position `a + k` of a list whose bytes `a .. a+k-1` already hold the
first `k` bytes of `data` extends the copied range by one byte. -/
theorem set_copied_prefix (buf data : List Byte) (a k : Nat) (hk : k < data.length)
    (hin : a + k < buf.length) :
    (buf.take a ++ data.take k ++ buf.drop (a + k)).set (a + k) (data.getD k 0)
      = buf.take a ++ data.take (k + 1) ++ buf.drop (a + (k + 1)) := by
  have hlen : (buf.take a ++ data.take k).length = a + k := by
    rw [List.length_append, List.length_take, List.length_take]
    omega
  have htake : data.take (k + 1) = data.take k ++ [data[k]] := by
    rw [List.take_succ, List.getElem?_eq_getElem hk]
    rfl
  rw [List.set_append_right _ _ (by omega), hlen, Nat.sub_self,
    List.drop_eq_getElem_cons hin, List.set_cons_zero,
    List.getD_eq_getElem _ _ hk, htake]
  simp only [List.append_assoc, List.singleton_append, Nat.add_assoc]

/-- A copy that stays inside the buffer replaces bytes `dst .. dst+k-1` by the first
`k` bytes of `data` and changes nothing else. -/
theorem memcpy_buffer_inside (s : State) (dst : Nat) (data : List Byte) (k : Nat)
    (hk : k ≤ data.length) (hin : dst + k ≤ s.dfu_buffer.length) (h32 : dst + k ≤ 2 ^ 32) :
    memcpy_buffer s dst data k =
      { s with dfu_buffer := s.dfu_buffer.take dst ++ data.take k ++ s.dfu_buffer.drop (dst + k) } := by
  induction k with
  | zero => simp [memcpy_buffer]
  | succ k ih =>
    have ih' := ih (by omega) (by omega) (by omega)
    have hmod : (dst + k) % 2 ^ 32 = dst + k := Nat.mod_eq_of_lt (by omega)
    have hlen : (s.dfu_buffer.take dst ++ data.take k ++ s.dfu_buffer.drop (dst + k)).length
        = s.dfu_buffer.length := by
      simp only [List.length_append, List.length_take, List.length_drop]
      omega
    simp only [memcpy_buffer]
    rw [ih', hmod]
    unfold store_byte
    simp only [hlen]
    rw [if_pos (by omega), set_copied_prefix _ _ _ _ (by omega) (by omega)]

/-- Two idle readings head the list. -/
theorem idle_readings_eq (hw : List Bool) (h : idle_readings hw = true) :
    ∃ rest, hw = false :: false :: rest := by
  match hw, h with
  | false :: false :: rest, _ => exact ⟨rest, rfl⟩

/-- A fragment that passes the bounds check without completing the block returns true
and only copies. -/
theorem dfu_download_incomplete (T : Nat) (s : State)
    (blockNum blockLength packetOffset packetLength : Nat) (data : List Byte) (hw : List Bool)
    (h1 : (packetOffset + packetLength) % 2 ^ 32 ≤ T)
    (h2 : (packetOffset + packetLength) % 2 ^ 32 < blockLength) :
    dfu_download T s blockNum blockLength packetOffset packetLength data hw
      = some (true, memcpy_buffer s packetOffset data packetLength) := by
  unfold dfu_download
  rw [if_neg (by omega)]
  simp only []
  rw [if_pos (by omega)]

/-- The last fragment of a non-empty block, received in Idle or DownloadIdle with the
Flash SM Idle and the controller idle: the state it leaves. -/
theorem dfu_download_complete (T : Nat) (s : State)
    (blockNum blockLength packetOffset packetLength : Nat) (data : List Byte) (hw : List Bool)
    (h1 : blockLength ≤ T) (h2 : (packetOffset + packetLength) % 2 ^ 32 = blockLength)
    (hL : 0 < blockLength)
    (hst : s.dfu_state = .dfuIDLE ∨ s.dfu_state = .dfuDNLOAD_IDLE)
    (hfl : s.fl_state = .flsIDLE) (hhw : idle_readings hw = true) :
    dfu_download T s blockNum blockLength packetOffset packetLength data hw
      = some (true, set_state
          { memcpy_buffer s packetOffset data packetLength with
            fl_state := .flsERASING
            fl_current_addr := address_for_block blockNum
            dfu_bytes_remaining := blockLength
            spi_cmds := s.spi_cmds ++
              if address_for_block blockNum &&& (2 ^ 32 - 1 - (ERASE_SIZE - 1))
                  = address_for_block blockNum
              then [SpiCmd.erase64 (address_for_block blockNum)] else [] }
          .dfuDNLOAD_SYNC .OK) := by
  obtain ⟨rest, rfl⟩ := idle_readings_eq hw hhw
  have hst' : ¬ (s.dfu_state ≠ .dfuIDLE ∧ s.dfu_state ≠ .dfuDNLOAD_IDLE) := by
    rcases hst with h | h <;> simp [h]
  unfold dfu_download
  rw [if_neg (by omega)]
  simp only [h2, ne_eq, not_true_eq_false, if_false, memcpy_buffer_dfu_state,
    memcpy_buffer_fl_state]
  rw [if_neg hst']
  simp only [hfl, ne_eq, not_true_eq_false, or_false, if_false, Bool.false_eq_true]
  rw [if_neg (by omega)]
  unfold ftfl_begin_erase_sector
  simp only [ftfl_busy_wait]
  by_cases hal : address_for_block blockNum &&& (2 ^ 32 - 1 - (ERASE_SIZE - 1))
      = address_for_block blockNum
  · rw [if_pos hal, if_pos hal]
    simp [set_state]
  · rw [if_neg hal, if_neg hal]
    simp [set_state]

/-- Taking the bytes up to the end of a freshly copied range yields the bytes before
it followed by the copied ones. -/
theorem take_copied (buf d rest : List Byte) (a : Nat) (ha : a ≤ buf.length) :
    (buf.take a ++ d ++ rest).take (a + d.length) = buf.take a ++ d := by
  have hl : (List.take a buf ++ d).length = a + d.length := by
    rw [List.length_append, List.length_take]
    omega
  rw [← hl, List.take_left]

/-- A partition of `[a, b)` has `a ≤ b`. -/
theorem fragments_partition_le (frags : List Fragment) :
    ∀ (a b : Nat), fragments_partition a frags b → a ≤ b := by
  induction frags with
  | nil =>
    intro a b h
    exact Nat.le_of_eq h
  | cons f rest ih =>
    intro a b h
    have := ih _ _ h.2.2
    omega

/-- The induction over the fragment list: the fragments cover `[start, blockLength)`. -/
theorem download_trace_from (T blockNum blockLength : Nat) (hT32 : T < 2 ^ 32)
    (hLT : blockLength ≤ T) :
    ∀ (frags : List Fragment) (start : Nat) (s : State),
      frags ≠ [] →
      T ≤ s.dfu_buffer.length →
      (s.dfu_state = .dfuIDLE ∨ s.dfu_state = .dfuDNLOAD_IDLE) →
      s.fl_state = .flsIDLE →
      fragments_partition start frags blockLength →
      (∀ f ∈ frags, idle_readings f.hw = true) →
      ∃ tr last, download_trace T blockNum blockLength s frags = some (tr ++ [last]) ∧
        tr.length + 1 = frags.length ∧
        (∀ p ∈ tr, p.1 = true ∧ p.2 = { s with dfu_buffer := p.2.dfu_buffer }) ∧
        last.1 = true ∧ last.2.fl_state = .flsERASING ∧
        last.2.dfu_state = .dfuDNLOAD_SYNC ∧ last.2.dfu_status = .OK ∧
        last.2.fl_current_addr = address_for_block blockNum ∧
        last.2.dfu_bytes_remaining = blockLength ∧
        last.2.stray = s.stray ∧
        last.2.dfu_buffer.take blockLength
          = s.dfu_buffer.take start ++ (frags.map Fragment.data).flatten := by
  intro frags
  induction frags with
  | nil =>
    intro start s hne
    exact absurd rfl hne
  | cons f rest ih =>
    intro start s _ hbuf hst hfl hpart hidle
    obtain ⟨hoff, hpos, hrest⟩ := hpart
    have hle := fragments_partition_le rest _ _ hrest
    have hcopy := memcpy_buffer_inside s start f.data f.data.length (Nat.le_refl _)
      (by omega) (by omega)
    rw [List.take_length] at hcopy
    cases rest with
    | nil =>
      have hend : start + f.data.length = blockLength := hrest
      have hsum : (f.packetOffset + f.data.length) % 2 ^ 32 = blockLength := by
        rw [hoff, hend]
        exact Nat.mod_eq_of_lt (by omega)
      have hdl := dfu_download_complete T s blockNum blockLength f.packetOffset
        f.data.length f.data f.hw hLT hsum (by omega) hst hfl
        (hidle f (List.mem_cons_self _ _))
      rw [hoff, hcopy] at hdl
      obtain ⟨sfin, hdl2, hsfin⟩ : ∃ sfin, dfu_download T s blockNum blockLength start
          f.data.length f.data f.hw = some (true, sfin) ∧ sfin = _ := ⟨_, hdl, rfl⟩
      refine ⟨[], (true, sfin), ?_, rfl, ?_, rfl, ?_, ?_, ?_, ?_, ?_, ?_, ?_⟩
      · simp only [download_trace, hoff, hdl2, List.nil_append]
      · intro p hp
        cases hp
      · subst hsfin
        rfl
      · subst hsfin
        rfl
      · subst hsfin
        rfl
      · subst hsfin
        rfl
      · subst hsfin
        rfl
      · subst hsfin
        rfl
      · subst hsfin
        simp only [set_state, List.map_cons, List.map_nil, List.flatten_cons,
          List.flatten_nil, List.append_nil]
        rw [← hend]
        exact take_copied _ _ _ _ (by omega)
    | cons g rest2 =>
      have hlt : start + f.data.length < blockLength := by
        have := fragments_partition_le rest2 _ _ hrest.2.2
        have := hrest.2.1
        omega
      have hmod : (f.packetOffset + f.data.length) % 2 ^ 32 = start + f.data.length := by
        rw [hoff]
        exact Nat.mod_eq_of_lt (by omega)
      have hdl := dfu_download_incomplete T s blockNum blockLength f.packetOffset
        f.data.length f.data f.hw (by omega) (by omega)
      rw [hoff, hcopy] at hdl
      have hlen1 : (List.take start s.dfu_buffer ++ f.data ++
          List.drop (start + f.data.length) s.dfu_buffer).length = s.dfu_buffer.length := by
        simp only [List.length_append, List.length_take, List.length_drop]
        omega
      obtain ⟨s1, hs1⟩ : ∃ s1 : State, s1 = _ := ⟨_, hcopy.symm.trans hcopy⟩
      rw [← hs1] at hdl
      have hs1buf : s1.dfu_buffer = List.take start s.dfu_buffer ++ f.data ++
          List.drop (start + f.data.length) s.dfu_buffer := by rw [hs1]
      have hs1eq : s1 = { s with dfu_buffer := s1.dfu_buffer } := by rw [hs1]
      obtain ⟨tr, last, htr, hn, hmid, h1, h2, h3, h4, h5, h6, h7, h8⟩ :=
        ih (start + f.data.length) s1 (List.cons_ne_nil _ _)
          (by rw [hs1buf, hlen1]; exact hbuf) (by rw [hs1]; exact hst)
          (by rw [hs1]; exact hfl) hrest
          (fun x hx => hidle x (List.mem_cons_of_mem _ hx))
      refine ⟨(true, s1) :: tr, last, ?_, ?_, ?_, h1, h2, h3, h4, h5, h6,
        by rw [h7, hs1], ?_⟩
      · rw [download_trace, hoff, hdl]
        simp only [htr, List.cons_append]
      · simp only [List.length_cons] at hn ⊢
        omega
      · intro p hp
        rcases List.mem_cons.mp hp with rfl | hp
        · exact ⟨rfl, hs1eq⟩
        · obtain ⟨ha, hb⟩ := hmid p hp
          refine ⟨ha, ?_⟩
          rw [hb, hs1]
      · rw [h8, hs1buf]
        rw [take_copied _ _ _ _ (by omega)]
        simp only [List.map_cons, List.flatten_cons, List.append_assoc]

/-- C2: from Idle or DownloadIdle with the Flash SM Idle and the controller idle, for
`0 < blockLength ≤ DFU_TRANSFER_SIZE` and non-empty fragments that cover
`[0, blockLength)` once and in order, every `dfu_download` returns true; every call
but the last leaves all of the state except the buffer bytes as it was; the last one
starts the flash cycle (Flash SM Erasing, DFU state DownloadSync/OK) and the first
`blockLength` bytes of the buffer are then the fragments' data, concatenated.
`DFU_TRANSFER_SIZE` is a multiple of 4 below 2^32 and the buffer has its declared
size. -/
theorem download_trace_partition (T : Nat) (s : State) (blockNum blockLength : Nat)
    (frags : List Fragment)
    (hT32 : T < 2 ^ 32) (hT4 : T % 4 = 0) (hbuf : s.dfu_buffer.length = buffer_bytes T)
    (hst : s.dfu_state = .dfuIDLE ∨ s.dfu_state = .dfuDNLOAD_IDLE)
    (hfl : s.fl_state = .flsIDLE)
    (hL : 0 < blockLength) (hLT : blockLength ≤ T)
    (hpart : fragments_partition 0 frags blockLength)
    (hidle : ∀ f ∈ frags, idle_readings f.hw = true) :
    ∃ tr last, download_trace T blockNum blockLength s frags = some (tr ++ [last]) ∧
      tr.length + 1 = frags.length ∧
      (∀ p ∈ tr, p.1 = true ∧ p.2 = { s with dfu_buffer := p.2.dfu_buffer }) ∧
      last.1 = true ∧ last.2.fl_state = .flsERASING ∧
      last.2.dfu_state = .dfuDNLOAD_SYNC ∧ last.2.dfu_status = .OK ∧
      last.2.fl_current_addr = address_for_block blockNum ∧
      last.2.dfu_bytes_remaining = blockLength ∧
      last.2.stray = s.stray ∧
      last.2.dfu_buffer.take blockLength = (frags.map Fragment.data).flatten := by
  have hne : frags ≠ [] := by
    rintro rfl
    have : 0 = blockLength := hpart
    omega
  have hlen : T ≤ s.dfu_buffer.length := by
    rw [hbuf]
    unfold buffer_bytes
    omega
  have h := download_trace_from T blockNum blockLength hT32 hLT frags 0 s hne hlen hst hfl
    hpart hidle
  rw [List.take_zero, List.nil_append] at h
  exact h

/-- Instance of C2: a block of 4 bytes received as two fragments of 2 bytes. -/
theorem download_trace_partition_witness :
    ∃ tr last, download_trace 8 0 4 (init_state 8)
        [⟨0, [1, 2], [false, false]⟩, ⟨2, [3, 4], [false, false]⟩] = some (tr ++ [last]) ∧
      tr.length + 1 = 2 ∧
      (∀ p ∈ tr, p.1 = true ∧ p.2 = { init_state 8 with dfu_buffer := p.2.dfu_buffer }) ∧
      last.1 = true ∧ last.2.fl_state = .flsERASING ∧
      last.2.dfu_state = .dfuDNLOAD_SYNC ∧ last.2.dfu_status = .OK ∧
      last.2.fl_current_addr = address_for_block 0 ∧
      last.2.dfu_bytes_remaining = 4 ∧
      last.2.stray = [] ∧
      last.2.dfu_buffer.take 4 = [1, 2, 3, 4] :=
  download_trace_partition 8 (init_state 8) 0 4
    [⟨0, [1, 2], [false, false]⟩, ⟨2, [3, 4], [false, false]⟩]
    (by decide) (by decide) (by decide) (by decide) (by decide) (by decide) (by decide)
    ⟨rfl, by decide, rfl, by decide, rfl⟩ (by simp [idle_readings])

/-! ## The flash cycle under `dfu_poll` -/

/-- The write commands, one more. -/
theorem write_cmds_succ (a L j : Nat) :
    write_cmds a L (j + 1) = write_cmds a L j ++
      [SpiCmd.write ((a + 256 * j) % 2 ^ 32) ((4 * (256 * j)) % 2 ^ 32) (min 256 (L - 256 * j))] := by
  unfold write_cmds
  rw [List.range_succ, List.map_append]
  rfl

/-- No write command yet. -/
theorem write_cmds_zero (a L : Nat) : write_cmds a L 0 = [] := rfl

/-- Number of write commands. -/
theorem write_cmds_length (a L j : Nat) : (write_cmds a L j).length = j := by
  unfold write_cmds
  simp

/-- One call of `ftfl_write_more_bytes` with the controller idle. -/
theorem ftfl_write_more_bytes_idle (s : State) (rest : List Bool)
    (hr : s.dfu_bytes_remaining < 2 ^ 32) :
    ftfl_write_more_bytes s (false :: rest) = some { s with
      spi_cmds := s.spi_cmds ++ [SpiCmd.write s.dfu_target_address
        ((4 * s.dfu_buffer_offset) % 2 ^ 32) (min 256 s.dfu_bytes_remaining)]
      dfu_bytes_remaining := s.dfu_bytes_remaining - min 256 s.dfu_bytes_remaining
      dfu_target_address := (s.dfu_target_address + min 256 s.dfu_bytes_remaining) % 2 ^ 32
      dfu_buffer_offset := (s.dfu_buffer_offset + min 256 s.dfu_bytes_remaining) % 2 ^ 32 } := by
  have hmin : (if s.dfu_bytes_remaining < WRITE_SIZE then s.dfu_bytes_remaining else WRITE_SIZE)
      = min 256 s.dfu_bytes_remaining := by
    unfold WRITE_SIZE
    split <;> omega
  have hsub : (s.dfu_bytes_remaining + 2 ^ 32 - min 256 s.dfu_bytes_remaining) % 2 ^ 32
      = s.dfu_bytes_remaining - min 256 s.dfu_bytes_remaining := by
    omega
  unfold ftfl_write_more_bytes
  simp only [ftfl_busy_wait, hmin, hsub]

/-- One poll with the controller idle advances the closed form by one step. -/
theorem dfu_poll_after_polls (s0 : State) (L k : Nat) (hw : List Bool)
    (hfl : s0.fl_state = .flsERASING)
    (hst : s0.dfu_state = .dfuDNLOAD_SYNC ∨ s0.dfu_state = .dfuDNBUSY)
    (hrem : s0.dfu_bytes_remaining = L) (hL : 0 < L) (hL32 : L < 2 ^ 32)
    (ha : s0.fl_current_addr < 2 ^ 32) (hhw : idle_readings hw = true) :
    dfu_poll (after_polls s0 L k) hw = some (after_polls s0 L (k + 1)) := by
  obtain ⟨rest, rfl⟩ := idle_readings_eq hw hhw
  have hdst : (after_polls s0 L k).dfu_state = s0.dfu_state := by
    unfold after_polls
    split <;> rfl
  unfold dfu_poll
  rw [hdst, if_pos hst]
  by_cases hk0 : k = 0
  · subst hk0
    have hm : 0 + 1 ≤ (L + 255) / 256 := by omega
    simp only [after_polls, if_true, fl_state_poll, hfl, ftfl_begin_program_section]
    rw [ftfl_write_more_bytes_idle _ _ (by simp only [hrem]; exact hL32)]
    simp only [hrem, Nat.add_one_ne_zero, if_false, hm, if_true, Nat.min_eq_left hm,
      write_cmds_succ, write_cmds_zero, List.nil_append,
      Option.some.injEq, State.mk.injEq, List.append_cancel_left_eq, List.cons.injEq,
      SpiCmd.write.injEq, and_true, true_and]
    constructorm* _ ∧ _ <;> omega
  · have hk1 : 1 ≤ k := by omega
    by_cases hlt : 256 * k < L
    · -- still bytes to program
      have hm : k + 1 ≤ (L + 255) / 256 := by omega
      have hm' : k ≤ (L + 255) / 256 := by omega
      simp only [after_polls, hk0, if_false, hm', if_true, fl_state_poll]
      rw [if_pos (by omega), ftfl_write_more_bytes_idle _ _
        (by show L - min (256 * k) L < 2 ^ 32; omega)]
      simp only [Nat.add_one_ne_zero, if_false, hm, if_true, Nat.min_eq_left hm,
        Nat.min_eq_left hm', write_cmds_succ, List.append_assoc,
        Option.some.injEq, State.mk.injEq, List.append_cancel_left_eq, List.cons.injEq,
        SpiCmd.write.injEq, and_true, true_and]
      constructorm* _ ∧ _ <;> omega
    · by_cases hle : k ≤ (L + 255) / 256
      · -- nothing left: the Flash SM goes Idle
        have hm : ¬ k + 1 ≤ (L + 255) / 256 := by omega
        simp only [after_polls, hk0, if_false, hle, if_true, fl_state_poll]
        rw [if_neg (by omega)]
        have hmin : min (k + 1) ((L + 255) / 256) = k := by omega
        simp only [Nat.add_one_ne_zero, if_false, hm, Nat.min_eq_left hle, hmin,
          Option.some.injEq, State.mk.injEq, List.append_cancel_left_eq, and_true, true_and]
        constructorm* _ ∧ _ <;> omega
      · -- already Idle
        have hm : ¬ k + 1 ≤ (L + 255) / 256 := by omega
        have hmin : min (k + 1) ((L + 255) / 256) = min k ((L + 255) / 256) := by omega
        simp only [after_polls, hk0, if_false, hle, fl_state_poll]
        simp only [Nat.add_one_ne_zero, if_false, hm, hmin,
          Option.some.injEq, State.mk.injEq, List.append_cancel_left_eq, and_true, true_and]
        constructorm* _ ∧ _ <;> omega

/-- Polls with the controller idle follow the closed form. -/
theorem run_polls_after_polls (s0 : State) (L : Nat)
    (hfl : s0.fl_state = .flsERASING)
    (hst : s0.dfu_state = .dfuDNLOAD_SYNC ∨ s0.dfu_state = .dfuDNBUSY)
    (hrem : s0.dfu_bytes_remaining = L) (hL : 0 < L) (hL32 : L < 2 ^ 32)
    (ha : s0.fl_current_addr < 2 ^ 32) :
    ∀ (polls : List (List Bool)) (k : Nat), (∀ p ∈ polls, idle_readings p = true) →
      run_polls (after_polls s0 L k) polls = some (after_polls s0 L (k + polls.length)) := by
  intro polls
  induction polls with
  | nil =>
    intro k _
    rfl
  | cons p rest ih =>
    intro k hidle
    rw [run_polls, dfu_poll_after_polls s0 L k p hfl hst hrem hL hL32 ha
      (hidle p (List.mem_cons_self _ _))]
    simp only []
    rw [ih (k + 1) (fun q hq => hidle q (List.mem_cons_of_mem _ hq)), List.length_cons]
    congr 2
    omega

/-- The address of a block is a 32-bit value. -/
theorem address_for_block_lt (blockNum : Nat) : address_for_block blockNum < 2 ^ 32 := by
  unfold address_for_block
  exact Nat.mod_lt _ (by decide)

/-- Flash SM state in the closed form. -/
theorem after_polls_fl_state (s0 : State) (L k : Nat) :
    (after_polls s0 L k).fl_state =
      if k = 0 then s0.fl_state
      else if k ≤ (L + 255) / 256 then .flsPROGRAMMING else .flsIDLE := by
  unfold after_polls
  split <;> rfl

/-- Commands issued in the closed form. -/
theorem after_polls_spi_cmds (s0 : State) (L k : Nat) :
    (after_polls s0 L k).spi_cmds =
      s0.spi_cmds ++ write_cmds s0.fl_current_addr L (min k ((L + 255) / 256)) := by
  unfold after_polls
  split
  · next h =>
    subst h
    simp [write_cmds_zero]
  · rfl

/-- Bytes left to program in the closed form. -/
theorem after_polls_dfu_bytes_remaining (s0 : State) (L k : Nat)
    (hrem : s0.dfu_bytes_remaining = L) :
    (after_polls s0 L k).dfu_bytes_remaining = L - min (256 * k) L := by
  unfold after_polls
  split
  · next h =>
    subst h
    simp [hrem]
  · rfl

/-- The polls leave the buffer alone. -/
theorem after_polls_dfu_buffer (s0 : State) (L k : Nat) :
    (after_polls s0 L k).dfu_buffer = s0.dfu_buffer := by
  unfold after_polls
  split <;> rfl

/-- The lengths of the first `j` writes add up to the bytes programmed so far. -/
theorem write_lengths_sum (L j : Nat) :
    ((List.range j).map fun k => min 256 (L - 256 * k)).sum = min (256 * j) L := by
  induction j with
  | zero => simp
  | succ j ih =>
    rw [List.range_succ, List.map_append, List.sum_append, ih]
    simp only [List.map_cons, List.map_nil, List.sum_cons, List.sum_nil]
    omega

/-- A completed non-empty block followed by polls, the controller idle throughout:
the download is accepted, the state it leaves, and the closed form of the state after
the polls. -/
theorem flash_cycle (T : Nat) (s : State) (blockNum L packetOffset packetLength : Nat)
    (data : List Byte) (hw : List Bool) (polls : List (List Bool))
    (hL : 1 ≤ L) (hLT : L ≤ T)
    (hsum : (packetOffset + packetLength) % 2 ^ 32 = L)
    (hst : s.dfu_state = .dfuIDLE ∨ s.dfu_state = .dfuDNLOAD_IDLE)
    (hfl : s.fl_state = .flsIDLE) (hhw : idle_readings hw = true)
    (hpolls : ∀ p ∈ polls, idle_readings p = true) :
    ∃ s0, dfu_download T s blockNum L packetOffset packetLength data hw = some (true, s0) ∧
      s0.fl_state = .flsERASING ∧ s0.dfu_state = .dfuDNLOAD_SYNC ∧
      s0.fl_current_addr = address_for_block blockNum ∧ s0.dfu_bytes_remaining = L ∧
      s0.spi_cmds = s.spi_cmds ++
        (if address_for_block blockNum &&& (2 ^ 32 - 1 - (ERASE_SIZE - 1))
            = address_for_block blockNum
          then [SpiCmd.erase64 (address_for_block blockNum)] else []) ∧
      s0.dfu_buffer = (memcpy_buffer s packetOffset data packetLength).dfu_buffer ∧
      run_polls s0 polls = some (after_polls s0 L polls.length) := by
  have hdl := dfu_download_complete T s blockNum L packetOffset packetLength data hw hLT hsum
    hL hst hfl hhw
  obtain ⟨s0, hdl2, hs0⟩ : ∃ s0, dfu_download T s blockNum L packetOffset packetLength data hw
      = some (true, s0) ∧ s0 = _ := ⟨_, hdl, rfl⟩
  have hrun := run_polls_after_polls s0 L (by rw [hs0]; rfl) (Or.inl (by rw [hs0]; rfl))
    (by rw [hs0]; rfl) hL (by omega) (by rw [hs0]; exact address_for_block_lt blockNum)
    polls 0 hpolls
  rw [Nat.zero_add] at hrun
  have h0 : after_polls s0 L 0 = s0 := rfl
  rw [h0] at hrun
  refine ⟨s0, hdl2, ?_, ?_, ?_, ?_, ?_, ?_, hrun⟩ <;> rw [hs0] <;> rfl

/-- C5: after `dfu_download` has completed a non-empty block of `L` bytes
(`1 ≤ L ≤ DFU_TRANSFER_SIZE`), with the controller idle at every poll, the Flash SM is
Erasing before the first poll, Programming after polls `1 .. ceil(L/256)`, and Idle
after `ceil(L/256) + 1` polls and any further poll. -/
theorem flash_cycle_states (T : Nat) (s : State)
    (blockNum L packetOffset packetLength : Nat)
    (data : List Byte) (hw : List Bool) (polls : List (List Bool))
    (hL : 1 ≤ L) (hLT : L ≤ T)
    (hsum : (packetOffset + packetLength) % 2 ^ 32 = L)
    (hst : s.dfu_state = .dfuIDLE ∨ s.dfu_state = .dfuDNLOAD_IDLE)
    (hfl : s.fl_state = .flsIDLE) (hhw : idle_readings hw = true)
    (hpolls : ∀ p ∈ polls, idle_readings p = true) :
    ∃ s0 sk, dfu_download T s blockNum L packetOffset packetLength data hw = some (true, s0) ∧
      run_polls s0 polls = some sk ∧
      sk.fl_state =
        (if polls.length = 0 then FlState.flsERASING
         else if polls.length ≤ (L + 255) / 256 then FlState.flsPROGRAMMING
         else FlState.flsIDLE) := by
  obtain ⟨s0, hdl, hfl0, _, _, _, _, _, hrun⟩ := flash_cycle T s blockNum L packetOffset
    packetLength data hw polls hL hLT hsum hst hfl hhw hpolls
  refine ⟨s0, _, hdl, hrun, ?_⟩
  rw [after_polls_fl_state, hfl0]

/-- Instance of C5: a block of 512 bytes; the Flash SM is Programming after two polls
and Idle after three. -/
theorem flash_cycle_states_witness :
    (∃ s0 sk, dfu_download 1024 (init_state 1024) 0 512 0 512 (List.replicate 512 0)
          [false, false] = some (true, s0) ∧
        run_polls s0 [[false, false], [false, false]] = some sk ∧
        sk.fl_state = .flsPROGRAMMING) ∧
    (∃ s0 sk, dfu_download 1024 (init_state 1024) 0 512 0 512 (List.replicate 512 0)
          [false, false] = some (true, s0) ∧
        run_polls s0 [[false, false], [false, false], [false, false]] = some sk ∧
        sk.fl_state = .flsIDLE) :=
  ⟨flash_cycle_states 1024 (init_state 1024) 0 512 0 512 (List.replicate 512 0)
      [false, false] [[false, false], [false, false]]
      (by decide) (by decide) (by decide) (by decide) (by decide) (by decide) (by decide),
   flash_cycle_states 1024 (init_state 1024) 0 512 0 512 (List.replicate 512 0)
      [false, false] [[false, false], [false, false], [false, false]]
      (by decide) (by decide) (by decide) (by decide) (by decide) (by decide) (by decide)⟩

/-- C6 as stated fails where the target address wraps: for block 16776191
(`address_for_block` = 2^32 - 256) of 512 bytes, `DFU_TRANSFER_SIZE = 1024`, the second
write command targets flash address 0, whereas `address_for_block(n) + 256 * 1` is
2^32. -/
theorem flash_cycle_write_address_wraps :
    address_for_block 16776191 + 256 * 1 = 4294967296 ∧
    ∃ s0 sk, dfu_download 1024 (init_state 1024) 16776191 512 0 512 (List.replicate 512 0)
        [false, false] = some (true, s0) ∧
      run_polls s0 [[false, false], [false, false], [false, false]] = some sk ∧
      sk.fl_state = .flsIDLE ∧
      sk.spi_cmds = [SpiCmd.write 4294967040 0 256, SpiCmd.write 0 1024 256] := by
  refine ⟨by decide, ?_⟩
  obtain ⟨s0, hdl, _, _, ha, _, hc, _, hrun⟩ := flash_cycle 1024 (init_state 1024) 16776191
    512 0 512 (List.replicate 512 0) [false, false]
    [[false, false], [false, false], [false, false]]
    (by decide) (by decide) (by decide) (by decide) (by decide) (by decide) (by decide)
  refine ⟨s0, _, hdl, hrun, ?_, ?_⟩
  · rw [after_polls_fl_state]
    rfl
  · rw [after_polls_spi_cmds, hc, ha]
    decide

/-- C6, amended: for a completed block `n` of `L` bytes (`1 ≤ L ≤ DFU_TRANSFER_SIZE`),
polled with the controller idle, the write commands issued are, for
`k = 0 .. ceil(L/256) - 1`, a write at flash address
`(address_for_block(n) + 256 k) mod 2^32` of `min(256, L - 256 k)` bytes, each after the
commands before it; after `ceil(L/256) + 1` polls the Flash SM is Idle with
`dfu_bytes_remaining = 0`, and throughout `dfu_bytes_remaining` is `L` minus the bytes
written.  Every length is between 1 and 256, the lengths add up to `L`, and when
`address_for_block(n) + L ≤ 2^32` the addresses are `address_for_block(n) + 256 k`
without reduction. -/
theorem flash_cycle_writes (T : Nat) (s : State)
    (blockNum L packetOffset packetLength : Nat)
    (data : List Byte) (hw : List Bool) (polls : List (List Bool))
    (hL : 1 ≤ L) (hLT : L ≤ T)
    (hsum : (packetOffset + packetLength) % 2 ^ 32 = L)
    (hst : s.dfu_state = .dfuIDLE ∨ s.dfu_state = .dfuDNLOAD_IDLE)
    (hfl : s.fl_state = .flsIDLE) (hhw : idle_readings hw = true)
    (hpolls : ∀ p ∈ polls, idle_readings p = true) :
    ∃ s0 sk, dfu_download T s blockNum L packetOffset packetLength data hw = some (true, s0) ∧
      run_polls s0 polls = some sk ∧
      sk.spi_cmds = s0.spi_cmds ++
        (List.range (min polls.length ((L + 255) / 256))).map (fun k =>
          SpiCmd.write ((address_for_block blockNum + 256 * k) % 2 ^ 32)
            ((4 * (256 * k)) % 2 ^ 32) (min 256 (L - 256 * k))) ∧
      sk.dfu_bytes_remaining = L - min (256 * polls.length) L ∧
      ((L + 255) / 256 + 1 ≤ polls.length →
        sk.fl_state = .flsIDLE ∧ sk.dfu_bytes_remaining = 0) ∧
      (∀ k, k < (L + 255) / 256 →
        1 ≤ min 256 (L - 256 * k) ∧ min 256 (L - 256 * k) ≤ 256) ∧
      ((List.range ((L + 255) / 256)).map fun k => min 256 (L - 256 * k)).sum = L ∧
      (address_for_block blockNum + L ≤ 2 ^ 32 → ∀ k, k < (L + 255) / 256 →
        (address_for_block blockNum + 256 * k) % 2 ^ 32
          = address_for_block blockNum + 256 * k) := by
  obtain ⟨s0, hdl, hfl0, _, ha, hrem, _, _, hrun⟩ := flash_cycle T s blockNum L packetOffset
    packetLength data hw polls hL hLT hsum hst hfl hhw hpolls
  refine ⟨s0, _, hdl, hrun, ?_, ?_, ?_, ?_, ?_, ?_⟩
  · rw [after_polls_spi_cmds, ha]
    rfl
  · exact after_polls_dfu_bytes_remaining s0 L _ hrem
  · intro hn
    rw [after_polls_fl_state, after_polls_dfu_bytes_remaining s0 L _ hrem]
    refine ⟨?_, by omega⟩
    rw [if_neg (by omega), if_neg (by omega)]
  · intro k hk
    omega
  · rw [write_lengths_sum]
    omega
  · intro hfit k hk
    exact Nat.mod_eq_of_lt (by omega)

/-- Instance of the amended C6: block 0 of 512 bytes is programmed by two writes of
256 bytes at flash addresses 262144 and 262400. -/
theorem flash_cycle_writes_witness :
    ∃ s0 sk, dfu_download 1024 (init_state 1024) 0 512 0 512 (List.replicate 512 0)
        [false, false] = some (true, s0) ∧
      run_polls s0 [[false, false], [false, false], [false, false]] = some sk ∧
      sk.spi_cmds = s0.spi_cmds ++ [SpiCmd.write 262144 0 256, SpiCmd.write 262400 1024 256] ∧
      sk.dfu_bytes_remaining = 0 ∧ sk.fl_state = .flsIDLE := by
  obtain ⟨s0, sk, h1, h2, h3, h4, h5, _⟩ := flash_cycle_writes 1024 (init_state 1024) 0 512 0
    512 (List.replicate 512 0) [false, false]
    [[false, false], [false, false], [false, false]]
    (by decide) (by decide) (by decide) (by decide) (by decide) (by decide) (by decide)
  exact ⟨s0, sk, h1, h2, h3, h4, (h5 (by decide)).1⟩

/-- C7, at the failing input: block 0 of 512 bytes with `DFU_TRANSFER_SIZE = 1024`.
The buffer holds 1024 bytes; the second write command is given `&dfu_buffer[256]`,
which is byte offset 1024, the first byte past the buffer, where the claim has byte
offset 256. -/
theorem flash_cycle_second_write_source :
    ∃ s0 sk, dfu_download 1024 (init_state 1024) 0 512 0 512 (List.replicate 512 0)
        [false, false] = some (true, s0) ∧
      run_polls s0 [[false, false], [false, false], [false, false]] = some sk ∧
      sk.fl_state = .flsIDLE ∧
      sk.dfu_buffer.length = 1024 ∧
      sk.spi_cmds = [SpiCmd.erase64 262144, SpiCmd.write 262144 0 256,
        SpiCmd.write 262400 1024 256] := by
  obtain ⟨s0, hdl, _, _, ha, _, hc, hb, hrun⟩ := flash_cycle 1024 (init_state 1024) 0
    512 0 512 (List.replicate 512 0) [false, false]
    [[false, false], [false, false], [false, false]]
    (by decide) (by decide) (by decide) (by decide) (by decide) (by decide) (by decide)
  refine ⟨s0, _, hdl, hrun, ?_, ?_, ?_⟩
  · rw [after_polls_fl_state]
    rfl
  · rw [after_polls_dfu_buffer, hb,
      memcpy_buffer_inside _ _ _ _ (by rw [List.length_replicate])
        (by rw [init_state_buffer_length]; decide) (by decide)]
    simp only [List.length_append, List.length_take, List.length_drop,
      init_state_buffer_length, List.length_replicate]
    decide
  · rw [after_polls_spi_cmds, hc, ha]
    decide

/-! ## End-to-end scenario -/

/-- DFU state in the closed form: the polls do not touch it. -/
theorem after_polls_dfu_state (s0 : State) (L k : Nat) :
    (after_polls s0 L k).dfu_state = s0.dfu_state := by
  unfold after_polls
  split <;> rfl

/-- Poll timeout in the closed form: the polls do not touch it. -/
theorem after_polls_dfu_poll_timeout_ms (s0 : State) (L k : Nat) :
    (after_polls s0 L k).dfu_poll_timeout_ms = s0.dfu_poll_timeout_ms := by
  unfold after_polls
  split <;> rfl

/-- The scenario of the specification, for `DFU_TRANSFER_SIZE = 1024` and any data:
block 0 of 256 bytes in one fragment is accepted and leaves DownloadSync; after two
polls with the controller idle `dfu_getstatus` leaves DownloadIdle; a download of
length 0 leaves ManifestSync; three more `dfu_getstatus` calls leave Manifest,
ManifestWaitReset and ManifestWaitReset, with poll timeouts 1, 10, 1000 and 1000 ms. -/
theorem scenario_download_then_manifest (c : Codes) (data : List Byte) (st : List Nat) :
    ∃ s1 s2 s3, dfu_download 1024 (init_state 1024) 0 256 0 256 data [false, false]
        = some (true, s1) ∧
      s1.dfu_state = .dfuDNLOAD_SYNC ∧ s1.dfu_poll_timeout_ms = 1 ∧
      run_polls s1 [[false, false], [false, false]] = some s2 ∧
      (dfu_getstatus c s2 st).2.1.dfu_state = .dfuDNLOAD_IDLE ∧
      (dfu_getstatus c s2 st).2.1.dfu_poll_timeout_ms = 1 ∧
      dfu_download 1024 (dfu_getstatus c s2 st).2.1 0 0 0 0 [] [false, false]
        = some (true, s3) ∧
      s3.dfu_state = .dfuMANIFEST_SYNC ∧ s3.dfu_poll_timeout_ms = 1 ∧
      (dfu_getstatus c s3 st).2.1.dfu_state = .dfuMANIFEST ∧
      (dfu_getstatus c s3 st).2.1.dfu_poll_timeout_ms = 10 ∧
      (dfu_getstatus c (dfu_getstatus c s3 st).2.1 st).2.1.dfu_state
        = .dfuMANIFEST_WAIT_RESET ∧
      (dfu_getstatus c (dfu_getstatus c s3 st).2.1 st).2.1.dfu_poll_timeout_ms = 1000 ∧
      (dfu_getstatus c (dfu_getstatus c (dfu_getstatus c s3 st).2.1 st).2.1 st).2.1.dfu_state
        = .dfuMANIFEST_WAIT_RESET ∧
      (dfu_getstatus c (dfu_getstatus c (dfu_getstatus c s3 st).2.1 st).2.1
        st).2.1.dfu_poll_timeout_ms = 1000 := by
  have hdl := dfu_download_complete 1024 (init_state 1024) 0 256 0 256 data [false, false]
    (by decide) (by decide) (by decide) (by decide) (by decide) (by decide)
  obtain ⟨s1, hdl1, hs1⟩ : ∃ s1, dfu_download 1024 (init_state 1024) 0 256 0 256 data
      [false, false] = some (true, s1) ∧ s1 = _ := ⟨_, hdl, rfl⟩
  have hst1 : s1.dfu_state = .dfuDNLOAD_SYNC := by rw [hs1]; rfl
  have hto1 : s1.dfu_poll_timeout_ms = 1 := by
    rw [hs1]
    simp [init_state]
  have hrun := run_polls_after_polls s1 256 (by rw [hs1]; rfl) (Or.inl hst1)
    (by rw [hs1]; rfl) (by decide) (by decide)
    (by rw [hs1]; exact address_for_block_lt 0) [[false, false], [false, false]] 0
    (by decide)
  have h0 : after_polls s1 256 0 = s1 := rfl
  rw [h0] at hrun
  have hst2 : (after_polls s1 256 2).dfu_state = .dfuDNLOAD_SYNC := by
    rw [after_polls_dfu_state, hst1]
  have hfl2 : (after_polls s1 256 2).fl_state = .flsIDLE := by
    rw [after_polls_fl_state]
    rfl
  have hto2 : (after_polls s1 256 2).dfu_poll_timeout_ms = 1 := by
    rw [after_polls_dfu_poll_timeout_ms, hto1]
  have hg : ∀ s, (dfu_getstatus c s st).2.1 = dfu_getstatus_step s := fun _ => rfl
  have hs3 : dfu_getstatus_step (after_polls s1 256 2)
      = set_state (after_polls s1 256 2) .dfuDNLOAD_IDLE .OK := by
    unfold dfu_getstatus_step
    simp [hst2, hfl2]
  have hdl3 : dfu_download 1024 (set_state (after_polls s1 256 2) .dfuDNLOAD_IDLE .OK)
      0 0 0 0 [] [false, false]
      = some (true, set_state (set_state (after_polls s1 256 2) .dfuDNLOAD_IDLE .OK)
          .dfuMANIFEST_SYNC .OK) := by
    unfold dfu_download
    simp [hfl2]
  refine ⟨s1, after_polls s1 256 2,
    set_state (set_state (after_polls s1 256 2) .dfuDNLOAD_IDLE .OK) .dfuMANIFEST_SYNC .OK,
    hdl1, hst1, hto1, hrun, ?_, ?_, ?_, rfl, ?_, ?_⟩
  · rw [hg, hs3]
    rfl
  · rw [hg, hs3]
    exact hto2
  · rw [hg, hs3]
    exact hdl3
  · exact hto2
  · simp only [hg]
    exact ⟨rfl, rfl, rfl, rfl, rfl, rfl⟩

/-- The second scenario of the specification: a fragment with offset 200 and length
100 for a block of 256 bytes (sum 300) is refused with Error/errADDRESS and stores
nothing, in any state and for any `DFU_TRANSFER_SIZE`. -/
theorem scenario_fragment_out_of_range (T : Nat) (s : State) (blockNum : Nat)
    (data : List Byte) (hw : List Bool) :
    ∃ s', dfu_download T s blockNum 256 200 100 data hw = some (false, s') ∧
      s'.dfu_state = .dfuERROR ∧ s'.dfu_status = .errADDRESS ∧
      s'.dfu_buffer = s.dfu_buffer ∧ s'.stray = s.stray :=
  dfu_download_bounds_nowrap T s blockNum 256 200 100 data hw (by decide)
    (Or.inr (by decide))

/-! ## `address_for_block` -/

/-- C15: for every block number `n`, `address_for_block n` is
`(262144 + 256 n) mod 2^32` and a multiple of the write chunk size 256.  The function
takes the block number and nothing else: no state enters the result. -/
theorem address_for_block_value (n : Nat) :
    address_for_block n = (262144 + 256 * n) % 2 ^ 32 ∧
    address_for_block n % WRITE_SIZE = 0 := by
  unfold address_for_block RESCUE_IMAGE_OFFSET WRITE_SIZE
  exact ⟨by omega, by omega⟩

/-- Below the wrap, the address is the plain sum. -/
theorem address_for_block_nowrap (n : Nat) (hn : n < 2 ^ 24 - 1024) :
    address_for_block n = 262144 + 256 * n := by
  unfold address_for_block RESCUE_IMAGE_OFFSET WRITE_SIZE
  omega

/-- C16 as stated fails: block numbers 0 and 16776192 are 32-bit values with
0 < 16776192, yet `address_for_block 16776192` wraps to 0, below
`address_for_block 0 = 262144`. -/
theorem address_for_block_not_monotone :
    (0 : Nat) < 16776192 ∧ 16776192 < 2 ^ 32 ∧
    address_for_block 0 = 262144 ∧ address_for_block 16776192 = 0 ∧
    ¬ address_for_block 0 < address_for_block 16776192 := by
  decide

/-- C16, amended: for block numbers `a < b < 2^24 - 1024` (the range in which
`262144 + 256 b` stays below 2^32), `address_for_block a < address_for_block b`. -/
theorem address_for_block_strict_mono (a b : Nat) (hab : a < b) (hb : b < 2 ^ 24 - 1024) :
    address_for_block a < address_for_block b := by
  rw [address_for_block_nowrap a (by omega), address_for_block_nowrap b hb]
  omega

/-- Instance of the amended C16. -/
theorem address_for_block_strict_mono_witness :
    address_for_block 3 < address_for_block 7 :=
  address_for_block_strict_mono 3 7 (by decide) (by decide)

/-- C20: for block numbers `a < b < 2^24 - 1024` and lengths `La, Lb ≥ 1`, the flash
byte ranges `[address_for_block a, address_for_block a + La)` and
`[address_for_block b, address_for_block b + Lb)` have no byte in common exactly when
`La ≤ 256 (b - a)`.  So blocks of at most 256 bytes never overlap, and a block longer
than 256 bytes reaches into the range of the next block number, whose address is the
target of its second write command. -/
theorem block_ranges_disjoint_iff (a b La Lb : Nat) (hab : a < b) (hb : b < 2 ^ 24 - 1024)
    (hLa : 1 ≤ La) (hLb : 1 ≤ Lb) :
    ((∀ x, address_for_block a ≤ x → x < address_for_block a + La →
        ¬ (address_for_block b ≤ x ∧ x < address_for_block b + Lb)) ↔
      La ≤ 256 * (b - a)) ∧
    (La ≤ 256 → ∀ x, address_for_block a ≤ x → x < address_for_block a + La →
        ¬ (address_for_block b ≤ x ∧ x < address_for_block b + Lb)) ∧
    (256 < La → b = a + 1 →
      address_for_block a ≤ address_for_block b ∧
      address_for_block b < address_for_block a + La ∧
      address_for_block b < address_for_block b + Lb ∧
      (address_for_block a + 256 * 1) % 2 ^ 32 = address_for_block b) := by
  rw [address_for_block_nowrap a (by omega), address_for_block_nowrap b hb]
  refine ⟨⟨?_, ?_⟩, ?_, ?_⟩
  · intro h
    by_contra hcon
    exact h (262144 + 256 * b) (by omega) (by omega) ⟨by omega, by omega⟩
  · intro h x h1 h2 h3
    omega
  · intro h x h1 h2 h3
    omega
  · intro h hb1
    subst hb1
    refine ⟨by omega, by omega, by omega, by omega⟩

/-- Instance of C20: blocks 0 and 1 with 512 and 256 bytes overlap; with 256 bytes each
they do not. -/
theorem block_ranges_disjoint_iff_witness :
    ((∀ x, address_for_block 0 ≤ x → x < address_for_block 0 + 512 →
        ¬ (address_for_block 1 ≤ x ∧ x < address_for_block 1 + 256)) ↔
      512 ≤ 256 * (1 - 0)) ∧
    ((∀ x, address_for_block 0 ≤ x → x < address_for_block 0 + 256 →
        ¬ (address_for_block 1 ≤ x ∧ x < address_for_block 1 + 256)) ↔
      256 ≤ 256 * (1 - 0)) :=
  ⟨(block_ranges_disjoint_iff 0 1 512 256 (by decide) (by decide) (by decide)
      (by decide)).1,
   (block_ranges_disjoint_iff 0 1 256 256 (by decide) (by decide) (by decide)
      (by decide)).1⟩

/-! ## The erase alignment test -/

/-- The bits of the erase mask 0xFFFF0000 are bits 16 to 31. -/
theorem erase_mask_testBit (i : Nat) : Nat.testBit 4294901760 i = (decide (16 ≤ i) && decide (i < 32)) := by
  have h : (4294901760 : Nat) = 2 ^ 16 * (2 ^ 16 - 1) := by norm_num
  rw [h, Nat.testBit_mul_pow_two, Nat.testBit_two_pow_sub_one]
  by_cases h1 : 16 ≤ i <;> by_cases h2 : i < 32 <;> simp [h1, h2] <;> omega

/-- A 32-bit value is unchanged by the erase mask exactly when it is a multiple of
65536. -/
theorem and_erase_mask_iff (a : Nat) (ha : a < 2 ^ 32) :
    a &&& 4294901760 = a ↔ a % 65536 = 0 := by
  constructor
  · intro h
    apply Nat.eq_of_testBit_eq
    intro i
    have hi : (a &&& 4294901760).testBit i = a.testBit i := by rw [h]
    rw [Nat.testBit_and, erase_mask_testBit] at hi
    have h2 : (65536 : Nat) = 2 ^ 16 := by norm_num
    rw [h2, Nat.testBit_mod_two_pow, Nat.zero_testBit]
    by_cases h1 : i < 16
    · have : ¬ 16 ≤ i := by omega
      simp [this] at hi
      simp [hi]
    · simp [h1]
  · intro h
    apply Nat.eq_of_testBit_eq
    intro i
    rw [Nat.testBit_and, erase_mask_testBit]
    by_cases hb : a.testBit i = true
    · have h32 : i < 32 := by
        by_contra hcon
        have : a < 2 ^ i := Nat.lt_of_lt_of_le ha (Nat.pow_le_pow_right (by decide) (by omega))
        rw [Nat.testBit_lt_two_pow this] at hb
        exact absurd hb (by decide)
      have h16 : 16 ≤ i := by
        by_contra hcon
        have h2 : (65536 : Nat) = 2 ^ 16 := by norm_num
        have hz : (a % 2 ^ 16).testBit i = false := by
          rw [← h2, h, Nat.zero_testBit]
        rw [Nat.testBit_mod_two_pow] at hz
        simp [hb] at hz
        omega
      simp [hb, h16, h32]
    · simp at hb
      simp [hb]

/-! ## The outcomes of `dfu_download` -/

/-- The seven outcomes of `dfu_download`: refused by the bounds check; fragment
stored, block incomplete; wrong DFU state; controller or Flash SM not idle; end of
download; no return (a reading is missing or the busy-wait spins); flash cycle
started. -/
theorem dfu_download_cases (T : Nat) (s : State)
    (blockNum blockLength packetOffset packetLength : Nat) (data : List Byte) (hw : List Bool) :
    dfu_download T s blockNum blockLength packetOffset packetLength data hw
        = some (false, set_state s .dfuERROR .errADDRESS) ∨
    ((packetOffset + packetLength) % 2 ^ 32 ≠ blockLength ∧
      dfu_download T s blockNum blockLength packetOffset packetLength data hw
        = some (true, memcpy_buffer s packetOffset data packetLength)) ∨
    dfu_download T s blockNum blockLength packetOffset packetLength data hw
        = some (false, set_state (memcpy_buffer s packetOffset data packetLength)
            .dfuERROR .errSTALLEDPKT) ∨
    dfu_download T s blockNum blockLength packetOffset packetLength data hw
        = some (false, set_state (memcpy_buffer s packetOffset data packetLength)
            .dfuERROR .errWRITE) ∨
    ((s.dfu_state = .dfuIDLE ∨ s.dfu_state = .dfuDNLOAD_IDLE) ∧ s.fl_state = .flsIDLE ∧
      blockLength = 0 ∧
      dfu_download T s blockNum blockLength packetOffset packetLength data hw
        = some (true, set_state (memcpy_buffer s packetOffset data packetLength)
            .dfuMANIFEST_SYNC .OK)) ∨
    dfu_download T s blockNum blockLength packetOffset packetLength data hw = none ∨
    ((s.dfu_state = .dfuIDLE ∨ s.dfu_state = .dfuDNLOAD_IDLE) ∧ s.fl_state = .flsIDLE ∧
      blockLength ≠ 0 ∧ (packetOffset + packetLength) % 2 ^ 32 = blockLength ∧
      dfu_download T s blockNum blockLength packetOffset packetLength data hw
        = some (true, set_state
          { memcpy_buffer s packetOffset data packetLength with
            fl_state := .flsERASING
            fl_current_addr := address_for_block blockNum
            dfu_bytes_remaining := blockLength
            spi_cmds := s.spi_cmds ++
              if address_for_block blockNum &&& (2 ^ 32 - 1 - (ERASE_SIZE - 1))
                  = address_for_block blockNum
              then [SpiCmd.erase64 (address_for_block blockNum)] else [] }
          .dfuDNLOAD_SYNC .OK)) := by
  unfold dfu_download
  by_cases hck : T < (packetOffset + packetLength) % 2 ^ 32 ∨
      blockLength < (packetOffset + packetLength) % 2 ^ 32
  · left
    rw [if_pos hck]
  · right
    rw [if_neg hck]
    by_cases hne : (packetOffset + packetLength) % 2 ^ 32 ≠ blockLength
    · left
      exact ⟨hne, by simp only []; rw [if_pos hne]⟩
    · right
      simp only []
      rw [if_neg hne]
      simp only [memcpy_buffer_dfu_state, memcpy_buffer_fl_state]
      by_cases hst : s.dfu_state ≠ .dfuIDLE ∧ s.dfu_state ≠ .dfuDNLOAD_IDLE
      · left
        rw [if_pos hst]
      · right
        rw [if_neg hst]
        have hst' : s.dfu_state = .dfuIDLE ∨ s.dfu_state = .dfuDNLOAD_IDLE := by
          by_cases h : s.dfu_state = .dfuIDLE
          · exact Or.inl h
          · by_cases h' : s.dfu_state = .dfuDNLOAD_IDLE
            · exact Or.inr h'
            · exact absurd ⟨h, h'⟩ hst
        cases hw with
        | nil =>
          right
          right
          left
          rfl
        | cons busy hw1 =>
          simp only []
          by_cases hb : busy = true ∨ s.fl_state ≠ .flsIDLE
          · left
            rw [if_pos hb]
          · right
            rw [if_neg hb]
            have hfl : s.fl_state = .flsIDLE := by
              by_contra h
              exact hb (Or.inr h)
            by_cases h0 : blockLength = 0
            · left
              exact ⟨hst', hfl, h0, by rw [if_pos h0]⟩
            · right
              rw [if_neg h0]
              unfold ftfl_begin_erase_sector
              cases hbw : ftfl_busy_wait hw1 with
              | none =>
                left
                rfl
              | some rest =>
                right
                refine ⟨hst', hfl, h0, by simpa using hne, ?_⟩
                simp only []
                by_cases hal : address_for_block blockNum &&& (2 ^ 32 - 1 - (ERASE_SIZE - 1))
                    = address_for_block blockNum
                · rw [if_pos hal, if_pos hal]
                  simp [set_state]
                · rw [if_neg hal, if_neg hal]
                  simp [set_state]

/-- C18: a `dfu_download` that completes a non-empty block `n < 2^24 - 1024` and
returns true leaves the Flash SM Erasing and the DFU state DownloadSync/OK; it issues
one erase command, at `address_for_block n`, when that address is a multiple of 65536,
which is the case exactly when `n mod 256 = 0`, and no command for any other `n`. -/
theorem dfu_download_erase_command (T : Nat) (s s0 : State)
    (n L packetOffset packetLength : Nat) (data : List Byte) (hw : List Bool)
    (hn : n < 2 ^ 24 - 1024) (hL : L ≠ 0)
    (hsum : (packetOffset + packetLength) % 2 ^ 32 = L)
    (hres : dfu_download T s n L packetOffset packetLength data hw = some (true, s0)) :
    (address_for_block n % ERASE_SIZE = 0 ↔ n % 256 = 0) ∧
    (n % 256 = 0 → s0.spi_cmds = s.spi_cmds ++ [SpiCmd.erase64 (address_for_block n)]) ∧
    (n % 256 ≠ 0 → s0.spi_cmds = s.spi_cmds) ∧
    s0.fl_state = .flsERASING ∧ s0.dfu_state = .dfuDNLOAD_SYNC ∧ s0.dfu_status = .OK := by
  have hal : (address_for_block n &&& (2 ^ 32 - 1 - (ERASE_SIZE - 1)) = address_for_block n)
      ↔ n % 256 = 0 := by
    have h := and_erase_mask_iff (address_for_block n) (address_for_block_lt n)
    have hm : (2 ^ 32 - 1 - (ERASE_SIZE - 1) : Nat) = 4294901760 := by decide
    rw [hm, h, address_for_block_nowrap n hn]
    omega
  have hmod : address_for_block n % ERASE_SIZE = 0 ↔ n % 256 = 0 := by
    rw [address_for_block_nowrap n hn]
    unfold ERASE_SIZE
    omega
  rcases dfu_download_cases T s n L packetOffset packetLength data hw with
    h | ⟨hne, _⟩ | h | h | ⟨_, _, h0, _⟩ | h | ⟨_, _, _, _, h⟩
  · rw [h] at hres
    simp at hres
  · exact absurd hsum hne
  · rw [h] at hres
    simp at hres
  · rw [h] at hres
    simp at hres
  · exact absurd h0 hL
  · rw [h] at hres
    simp at hres
  · rw [h] at hres
    simp only [Option.some.injEq, Prod.mk.injEq, true_and] at hres
    subst hres
    refine ⟨hmod, ?_, ?_, rfl, rfl, rfl⟩
    · intro h256
      simp only [set_state]
      rw [if_pos (hal.mpr h256)]
    · intro h256
      simp only [set_state]
      rw [if_neg (fun h => h256 (hal.mp h)), List.append_nil]

/-- Instance of C18: block 256 is erase-aligned and gets its erase command, block 1
does not. -/
theorem dfu_download_erase_command_witness :
    (∃ s0, dfu_download 8 (init_state 8) 256 4 0 4 [1, 2, 3, 4] [false, false]
        = some (true, s0) ∧
      s0.spi_cmds = (init_state 8).spi_cmds ++ [SpiCmd.erase64 (address_for_block 256)]) ∧
    (∃ s0, dfu_download 8 (init_state 8) 1 4 0 4 [1, 2, 3, 4] [false, false]
        = some (true, s0) ∧
      s0.spi_cmds = (init_state 8).spi_cmds) :=
  ⟨⟨_, dfu_download_complete 8 (init_state 8) 256 4 0 4 [1, 2, 3, 4] [false, false]
      (by decide) (by decide) (by decide) (by decide) (by decide) (by decide),
    (dfu_download_erase_command 8 (init_state 8) _ 256 4 0 4 [1, 2, 3, 4] [false, false]
      (by decide) (by decide) (by decide)
      (dfu_download_complete 8 (init_state 8) 256 4 0 4 [1, 2, 3, 4] [false, false]
        (by decide) (by decide) (by decide) (by decide) (by decide) (by decide))).2.1
      (by decide)⟩,
   ⟨_, dfu_download_complete 8 (init_state 8) 1 4 0 4 [1, 2, 3, 4] [false, false]
      (by decide) (by decide) (by decide) (by decide) (by decide) (by decide),
    (dfu_download_erase_command 8 (init_state 8) _ 1 4 0 4 [1, 2, 3, 4] [false, false]
      (by decide) (by decide) (by decide)
      (dfu_download_complete 8 (init_state 8) 1 4 0 4 [1, 2, 3, 4] [false, false]
        (by decide) (by decide) (by decide) (by decide) (by decide) (by decide))).2.2.1
      (by decide)⟩⟩

/-! ## One poll -/

/-- C17 as stated fails (`DFU_TRANSFER_SIZE = 1024`): after a block of 4 bytes for
block number 0 was accepted (Flash SM Erasing, DownloadSync, `fl_current_addr` =
262144), one `dfu_poll` with the controller idle leaves the Flash SM Programming with
`dfu_buffer_offset = 4` and `dfu_target_address = 262148`, not 0 and 262144: the call
has already issued the first write. -/
theorem dfu_poll_erasing_advances_cursors :
    ∃ s0 s1, dfu_download 1024 (init_state 1024) 0 4 0 4 [1, 2, 3, 4] [false, false]
        = some (true, s0) ∧
      s0.fl_state = .flsERASING ∧ s0.dfu_state = .dfuDNLOAD_SYNC ∧
      s0.fl_current_addr = 262144 ∧
      dfu_poll s0 [false, false] = some s1 ∧
      s1.fl_state = .flsPROGRAMMING ∧ s1.dfu_buffer_offset = 4 ∧
      s1.dfu_target_address = 262148 := by
  obtain ⟨s0, hdl, hfl, hst, ha, hrem, _, _, _⟩ := flash_cycle 1024 (init_state 1024) 0 4 0 4
    [1, 2, 3, 4] [false, false] []
    (by decide) (by decide) (by decide) (by decide) (by decide) (by decide) (by decide)
  have hpoll := dfu_poll_after_polls s0 4 0 [false, false] hfl (Or.inl hst) hrem (by decide)
    (by decide) (by rw [ha]; exact address_for_block_lt 0) rfl
  have h0 : after_polls s0 4 0 = s0 := rfl
  rw [h0] at hpoll
  refine ⟨s0, _, hdl, hfl, hst, by rw [ha]; decide, hpoll, ?_, ?_, ?_⟩
  · rw [after_polls_fl_state]
    rfl
  · rfl
  · show (s0.fl_current_addr + min (256 * (0 + 1)) 4) % 2 ^ 32 = 262148
    rw [ha]
    decide

/-- C17, amended: with the Flash SM Erasing, the DFU state DownloadSync or DownloadBusy
and the controller idle, one `dfu_poll` moves the Flash SM to Programming and issues
the first write command, at flash address `fl_current_addr`, from offset 0 of the
buffer, of `min(256, dfu_bytes_remaining)` bytes; it leaves `dfu_buffer_offset` and
`dfu_target_address` advanced by that number from 0 and from `fl_current_addr`.  With
the controller busy, `dfu_poll` leaves the state, commands included, as it was. -/
theorem dfu_poll_erasing (s : State) (hw rest : List Bool)
    (hfl : s.fl_state = .flsERASING)
    (hst : s.dfu_state = .dfuDNLOAD_SYNC ∨ s.dfu_state = .dfuDNBUSY)
    (hr : s.dfu_bytes_remaining < 2 ^ 32)
    (hhw : idle_readings hw = true) :
    dfu_poll s hw = some { s with
      fl_state := .flsPROGRAMMING
      spi_cmds := s.spi_cmds ++
        [SpiCmd.write s.fl_current_addr 0 (min 256 s.dfu_bytes_remaining)]
      dfu_bytes_remaining := s.dfu_bytes_remaining - min 256 s.dfu_bytes_remaining
      dfu_target_address := (s.fl_current_addr + min 256 s.dfu_bytes_remaining) % 2 ^ 32
      dfu_buffer_offset := min 256 s.dfu_bytes_remaining } ∧
    dfu_poll s (true :: rest) = some s := by
  obtain ⟨tl, rfl⟩ := idle_readings_eq hw hhw
  constructor
  · unfold dfu_poll
    rw [if_pos hst]
    simp only [fl_state_poll, hfl, ftfl_begin_program_section]
    rw [ftfl_write_more_bytes_idle _ _ (by dsimp only; exact hr)]
    simp only [Option.some.injEq, State.mk.injEq, List.append_cancel_left_eq, List.cons.injEq,
      SpiCmd.write.injEq, and_true, true_and]
    constructorm* _ ∧ _ <;> omega
  · unfold dfu_poll
    rw [if_pos hst]
    rfl

/-- Instance of the amended C17: with the controller busy the poll changes nothing. -/
theorem dfu_poll_erasing_witness :
    dfu_poll { init_state 8 with fl_state := .flsERASING, dfu_state := .dfuDNLOAD_SYNC } [true]
      = some { init_state 8 with fl_state := .flsERASING, dfu_state := .dfuDNLOAD_SYNC } :=
  (dfu_poll_erasing
    { init_state 8 with fl_state := .flsERASING, dfu_state := .dfuDNLOAD_SYNC }
    [false, false] [] rfl (Or.inl rfl) (by decide) rfl).2

/-! ## Invariants of the reachable states -/

/-- `ftfl_write_more_bytes` leaves the protocol fields, the buffer and the Flash SM
state as they are. -/
theorem ftfl_write_more_bytes_keeps (s s' : State) (hw : List Bool)
    (h : ftfl_write_more_bytes s hw = some s') :
    s'.dfu_state = s.dfu_state ∧ s'.dfu_status = s.dfu_status ∧
    s'.dfu_poll_timeout_ms = s.dfu_poll_timeout_ms ∧ s'.dfu_buffer = s.dfu_buffer ∧
    s'.stray = s.stray ∧ s'.fl_state = s.fl_state := by
  unfold ftfl_write_more_bytes at h
  cases hbw : ftfl_busy_wait hw with
  | none =>
    rw [hbw] at h
    simp at h
  | some rest =>
    rw [hbw] at h
    simp only [Option.some.injEq] at h
    subst h
    exact ⟨rfl, rfl, rfl, rfl, rfl, rfl⟩

/-- `dfu_poll` leaves the protocol fields and the buffer as they are, and leaves the
whole state as it is unless the DFU state is DownloadSync or DownloadBusy. -/
theorem dfu_poll_keeps (s s' : State) (hw : List Bool) (h : dfu_poll s hw = some s') :
    s'.dfu_state = s.dfu_state ∧ s'.dfu_status = s.dfu_status ∧
    s'.dfu_poll_timeout_ms = s.dfu_poll_timeout_ms ∧ s'.dfu_buffer = s.dfu_buffer ∧
    s'.stray = s.stray ∧
    (s' = s ∨ s.dfu_state = .dfuDNLOAD_SYNC ∨ s.dfu_state = .dfuDNBUSY) := by
  unfold dfu_poll at h
  by_cases hst : s.dfu_state = .dfuDNLOAD_SYNC ∨ s.dfu_state = .dfuDNBUSY
  · rw [if_pos hst] at h
    refine ⟨?_, ?_, ?_, ?_, ?_, Or.inr hst⟩ <;>
    · unfold fl_state_poll at h
      match hw, h with
      | true :: _, h =>
        simp only [Option.some.injEq] at h
        rw [← h]
      | false :: hw1, h =>
        simp only at h
        cases hfl : s.fl_state with
        | flsIDLE =>
          rw [hfl] at h
          simp only [Option.some.injEq] at h
          rw [← h]
        | flsERASING =>
          rw [hfl] at h
          simp only [ftfl_begin_program_section] at h
          have := ftfl_write_more_bytes_keeps _ _ _ h
          simp only at this
          simp only [this]
        | flsPROGRAMMING =>
          rw [hfl] at h
          simp only at h
          by_cases hr : s.dfu_bytes_remaining ≠ 0
          · rw [if_pos hr] at h
            have := ftfl_write_more_bytes_keeps _ _ _ h
            simp only [this]
          · rw [if_neg hr] at h
            simp only [Option.some.injEq] at h
            rw [← h]
  · rw [if_neg hst] at h
    simp only [Option.some.injEq] at h
    subst h
    exact ⟨rfl, rfl, rfl, rfl, rfl, Or.inl rfl⟩

/-- `dfu_getstatus` keeps the invariant. -/
theorem dfu_getstatus_step_invariant (s : State) (h : protocol_invariant s) :
    protocol_invariant (dfu_getstatus_step s) := by
  obtain ⟨h1, h2, h3⟩ := h
  unfold dfu_getstatus_step
  cases hst : s.dfu_state <;> simp only [hst] at h1 h2 ⊢
  · exact ⟨fun _ => h1 (by simp), by simp [hst], h3⟩
  · by_cases hfl : s.fl_state = .flsIDLE
    · simp [hfl, protocol_invariant, h3]
    · simp [hfl, protocol_invariant, h3]
  · by_cases hfl : s.fl_state = .flsIDLE
    · simp [hfl, protocol_invariant, h3]
    · simp [hfl, protocol_invariant, h3]
  · exact ⟨fun _ => h1 (by simp), fun _ => h2 (by simp), h3⟩
  · exact ⟨fun _ => rfl, fun _ => h2 (by simp), Or.inr (Or.inl rfl)⟩
  · exact ⟨fun _ => rfl, fun _ => h2 (by simp), Or.inr (Or.inr rfl)⟩
  · exact ⟨fun _ => h1 (by simp), fun _ => h2 (by simp), h3⟩
  · exact ⟨by simp [hst], by simp [hst], h3⟩

/-- Every call keeps the invariant. -/
theorem step_invariant (T : Nat) (c : Codes) (s s' : State) (op : Op)
    (h : protocol_invariant s) (hstep : step T c s op = some s') :
    protocol_invariant s' := by
  obtain ⟨h1, h2, h3⟩ := h
  cases op with
  | download blockNum blockLength packetOffset packetLength data hw =>
    simp only [step] at hstep
    rcases dfu_download_cases T s blockNum blockLength packetOffset packetLength data hw with
      hd | ⟨_, hd⟩ | hd | hd | ⟨_, hfl, _, hd⟩ | hd | ⟨_, _, _, _, hd⟩ <;>
    rw [hd] at hstep <;> simp only [Option.some.injEq] at hstep
    · subst hstep
      exact ⟨by simp, by simp, h3⟩
    · subst hstep
      exact ⟨by simpa using h1, by simpa using h2, by simpa using h3⟩
    · subst hstep
      exact ⟨by simp, by simp, by simpa using h3⟩
    · subst hstep
      exact ⟨by simp, by simp, by simpa using h3⟩
    · subst hstep
      exact ⟨by simp, by simp [hfl], by simpa using h3⟩
    · cases hstep
    · subst hstep
      exact ⟨fun _ => rfl, by simp [set_state], by simpa [set_state] using h3⟩
  | getstatus status =>
    simp only [step, Option.some.injEq] at hstep
    subst hstep
    exact dfu_getstatus_step_invariant s ⟨h1, h2, h3⟩
  | clrstatus =>
    simp only [step, Option.some.injEq] at hstep
    subst hstep
    unfold dfu_clrstatus
    cases hst : s.dfu_state <;> exact ⟨by simp, by simp, h3⟩
  | abort =>
    simp only [step, Option.some.injEq] at hstep
    subst hstep
    exact ⟨fun _ => rfl, by simp [dfu_abort], h3⟩
  | poll hw =>
    simp only [step] at hstep
    obtain ⟨k1, k2, k3, _, _, k4⟩ := dfu_poll_keeps s s' hw hstep
    refine ⟨by rw [k1, k2]; exact h1, ?_, by rw [k3]; exact h3⟩
    rcases k4 with k4 | k4
    · rw [k4]
      exact h2
    · rw [k1]
      intro hx
      rcases k4 with k4 | k4 <;> rw [k4] at hx <;> simp at hx

/-- Every sequence of calls keeps the invariant. -/
theorem run_invariant (T : Nat) (c : Codes) (ops : List Op) :
    ∀ (s s' : State), protocol_invariant s → run T c s ops = some s' →
      protocol_invariant s' := by
  induction ops with
  | nil =>
    intro s s' h hrun
    simp only [run, Option.some.injEq] at hrun
    rw [← hrun]
    exact h
  | cons op rest ih =>
    intro s s' h hrun
    simp only [run] at hrun
    cases hs : step T c s op with
    | none =>
      rw [hs] at hrun
      simp at hrun
    | some s1 =>
      rw [hs] at hrun
      exact ih s1 s' (step_invariant T c s s1 op h hs) hrun

/-- `dfu_getstatus` stores nothing in the buffer or outside it. -/
theorem dfu_getstatus_step_keeps (s : State) :
    (dfu_getstatus_step s).stray = s.stray ∧
    (dfu_getstatus_step s).dfu_buffer = s.dfu_buffer := by
  unfold dfu_getstatus_step
  cases hst : s.dfu_state <;> simp only [] <;> try exact ⟨rfl, rfl⟩
  all_goals by_cases hfl : s.fl_state = .flsIDLE <;> simp [hfl]

/-- A `dfu_download` that is refused by the bounds check, or whose
`packetOffset + packetLength` does not wrap, stores nothing outside the buffer and
keeps the size of the buffer. -/
theorem dfu_download_inside (T : Nat) (s : State)
    (blockNum blockLength packetOffset packetLength : Nat) (data : List Byte) (hw : List Bool)
    (r : Bool × State) (hbuf : T ≤ s.dfu_buffer.length)
    (hcopy : T < (packetOffset + packetLength) % 2 ^ 32 ∨
      blockLength < (packetOffset + packetLength) % 2 ^ 32 ∨
      packetOffset + packetLength < 2 ^ 32)
    (h : dfu_download T s blockNum blockLength packetOffset packetLength data hw = some r) :
    r.2.stray = s.stray ∧ r.2.dfu_buffer.length = s.dfu_buffer.length := by
  by_cases hck : T < (packetOffset + packetLength) % 2 ^ 32 ∨
      blockLength < (packetOffset + packetLength) % 2 ^ 32
  · unfold dfu_download at h
    rw [if_pos hck] at h
    simp only [Option.some.injEq] at h
    subst h
    exact ⟨rfl, rfl⟩
  · have hnw : packetOffset + packetLength < 2 ^ 32 := by
      rcases hcopy with h1 | h1 | h1
      · exact absurd (Or.inl h1) hck
      · exact absurd (Or.inr h1) hck
      · exact h1
    have hle : packetOffset + packetLength ≤ T := by
      have := Nat.mod_eq_of_lt hnw
      omega
    obtain ⟨m1, m2⟩ := memcpy_buffer_stays s packetOffset data packetLength (by omega)
      (by omega)
    rcases dfu_download_cases T s blockNum blockLength packetOffset packetLength data hw with
      hd | ⟨_, hd⟩ | hd | hd | ⟨_, _, _, hd⟩ | hd | ⟨_, _, _, _, hd⟩ <;>
    rw [hd] at h
    · simp only [Option.some.injEq] at h
      subst h
      exact ⟨rfl, rfl⟩
    · simp only [Option.some.injEq] at h
      subst h
      exact ⟨m1, m2⟩
    · simp only [Option.some.injEq] at h
      subst h
      exact ⟨m1, m2⟩
    · simp only [Option.some.injEq] at h
      subst h
      exact ⟨m1, m2⟩
    · simp only [Option.some.injEq] at h
      subst h
      exact ⟨m1, m2⟩
    · cases h
    · simp only [Option.some.injEq] at h
      subst h
      exact ⟨m1, m2⟩

/-- A call that stores nothing outside the buffer: the record of stray stores and the
size of the buffer are as before. -/
theorem step_inside (T : Nat) (c : Codes) (s s' : State) (op : Op)
    (hbuf : T ≤ s.dfu_buffer.length) (hcopy : copy_inside T op)
    (hstep : step T c s op = some s') :
    s'.stray = s.stray ∧ s'.dfu_buffer.length = s.dfu_buffer.length := by
  cases op with
  | download blockNum blockLength packetOffset packetLength data hw =>
    simp only [step] at hstep
    cases hd : dfu_download T s blockNum blockLength packetOffset packetLength data hw with
    | none =>
      rw [hd] at hstep
      cases hstep
    | some r =>
      rw [hd] at hstep
      simp only [Option.some.injEq] at hstep
      subst hstep
      exact dfu_download_inside T s blockNum blockLength packetOffset packetLength data hw r
        hbuf hcopy hd
  | getstatus status =>
    simp only [step, Option.some.injEq] at hstep
    subst hstep
    obtain ⟨k1, k2⟩ := dfu_getstatus_step_keeps s
    exact ⟨k1, by show (dfu_getstatus_step s).dfu_buffer.length = _; rw [k2]⟩
  | clrstatus =>
    simp only [step, Option.some.injEq] at hstep
    subst hstep
    unfold dfu_clrstatus
    cases hst : s.dfu_state <;> exact ⟨rfl, rfl⟩
  | abort =>
    simp only [step, Option.some.injEq] at hstep
    subst hstep
    exact ⟨rfl, rfl⟩
  | poll hw =>
    simp only [step] at hstep
    obtain ⟨_, _, _, k4, k5, _⟩ := dfu_poll_keeps s s' hw hstep
    exact ⟨k5, by rw [k4]⟩

/-- A sequence of calls none of which stores outside the buffer: the record of stray
stores and the size of the buffer are as before. -/
theorem run_inside (T : Nat) (c : Codes) (ops : List Op) :
    ∀ (s s' : State), T ≤ s.dfu_buffer.length → (∀ op ∈ ops, copy_inside T op) →
      run T c s ops = some s' →
      s'.stray = s.stray ∧ s'.dfu_buffer.length = s.dfu_buffer.length := by
  induction ops with
  | nil =>
    intro s s' _ _ hrun
    simp only [run, Option.some.injEq] at hrun
    subst hrun
    exact ⟨rfl, rfl⟩
  | cons op rest ih =>
    intro s s' hbuf hcopy hrun
    simp only [run] at hrun
    cases hs : step T c s op with
    | none =>
      rw [hs] at hrun
      cases hrun
    | some s1 =>
      rw [hs] at hrun
      obtain ⟨a1, a2⟩ := step_inside T c s s1 op hbuf (hcopy op (List.mem_cons_self _ _)) hs
      obtain ⟨b1, b2⟩ := ih s1 s' (by rw [a2]; exact hbuf)
        (fun x hx => hcopy x (List.mem_cons_of_mem _ hx)) hrun
      exact ⟨b1.trans a1, b2.trans a2⟩

/-- In every state reached without a store outside the buffer, the invariant holds,
the record of stray stores is empty and the buffer has its declared size. -/
theorem reachable_inside_invariant (T : Nat) (c : Codes) (s : State) (hT4 : T % 4 = 0)
    (h : ReachableInside T c s) :
    protocol_invariant s ∧ s.stray = [] ∧ s.dfu_buffer.length = buffer_bytes T := by
  obtain ⟨ops, hcopy, hrun⟩ := h
  have hlen := init_state_buffer_length T
  have hbuf : T ≤ (init_state T).dfu_buffer.length := by
    rw [hlen]
    unfold buffer_bytes
    omega
  obtain ⟨a1, a2⟩ := run_inside T c ops (init_state T) s hbuf hcopy hrun
  refine ⟨run_invariant T c ops (init_state T) s ?_ hrun, a1, a2.trans hlen⟩
  exact ⟨fun _ => rfl, fun _ => rfl, Or.inl rfl⟩

/-- C11: in every state reached from the initial state by calls that store nothing
outside the buffer (`DFU_TRANSFER_SIZE` a multiple of 4), for a caller's array of 8
bytes and enumerator codes that fit a byte, `dfu_getstatus` returns true and leaves
byte 0 = the status code,
bytes 1..3 = the poll timeout in little-endian order (the timeout is below 2^24),
byte 4 = the code of the state after the transition made by the call, byte 5 = 0, and
bytes 6 and 7 as the caller had them. -/
theorem dfu_getstatus_report_layout (T : Nat) (c : Codes) (s : State) (status : List Nat)
    (hT4 : T % 4 = 0) (hreach : ReachableInside T c s) (hlen : status.length = 8)
    (hc1 : ∀ x, c.status_code x < 256) (hc2 : ∀ x, c.state_code x < 256) :
    (dfu_getstatus c s status).1 = true ∧
    (dfu_getstatus c s status).2.2.length = 8 ∧
    (dfu_getstatus c s status).2.2.getD 0 0
      = c.status_code (dfu_getstatus c s status).2.1.dfu_status ∧
    (dfu_getstatus c s status).2.2.getD 1 0 + 256 * (dfu_getstatus c s status).2.2.getD 2 0
        + 65536 * (dfu_getstatus c s status).2.2.getD 3 0
      = (dfu_getstatus c s status).2.1.dfu_poll_timeout_ms ∧
    (dfu_getstatus c s status).2.1.dfu_poll_timeout_ms < 2 ^ 24 ∧
    (dfu_getstatus c s status).2.2.getD 4 0
      = c.state_code (dfu_getstatus c s status).2.1.dfu_state ∧
    (dfu_getstatus c s status).2.2.getD 5 0 = 0 ∧
    (dfu_getstatus c s status).2.2.getD 6 0 = status.getD 6 0 ∧
    (dfu_getstatus c s status).2.2.getD 7 0 = status.getD 7 0 := by
  have hstep : (dfu_getstatus c s status).2.1 = dfu_getstatus_step s := rfl
  have hrep := dfu_getstatus_report c s status hlen
  have hinv := dfu_getstatus_step_invariant s (reachable_inside_invariant T c s hT4 hreach).1
  have ht := hinv.2.2
  rw [hrep, hstep]
  refine ⟨rfl, rfl, ?_, ?_, ?_, ?_, rfl, rfl, rfl⟩
  · exact Nat.mod_eq_of_lt (hc1 _)
  · show (dfu_getstatus_step s).dfu_poll_timeout_ms % 256
        + 256 * (((dfu_getstatus_step s).dfu_poll_timeout_ms >>> 8) % 256)
        + 65536 * (((dfu_getstatus_step s).dfu_poll_timeout_ms >>> 16) % 256)
      = (dfu_getstatus_step s).dfu_poll_timeout_ms
    rcases ht with ht | ht | ht <;> rw [ht] <;> decide
  · rcases ht with ht | ht | ht <;> rw [ht] <;> decide
  · exact Nat.mod_eq_of_lt (hc2 _)

/-- Instance of C11 at the initial state. -/
theorem dfu_getstatus_report_layout_witness :
    (dfu_getstatus ⟨fun _ => 0, fun _ => 0⟩ (init_state 8) [9, 9, 9, 9, 9, 9, 9, 9]).2.2.getD 1 0
        + 256 * (dfu_getstatus ⟨fun _ => 0, fun _ => 0⟩ (init_state 8)
            [9, 9, 9, 9, 9, 9, 9, 9]).2.2.getD 2 0
        + 65536 * (dfu_getstatus ⟨fun _ => 0, fun _ => 0⟩ (init_state 8)
            [9, 9, 9, 9, 9, 9, 9, 9]).2.2.getD 3 0
      = (dfu_getstatus ⟨fun _ => 0, fun _ => 0⟩ (init_state 8)
          [9, 9, 9, 9, 9, 9, 9, 9]).2.1.dfu_poll_timeout_ms :=
  (dfu_getstatus_report_layout 8 ⟨fun _ => 0, fun _ => 0⟩ (init_state 8)
    [9, 9, 9, 9, 9, 9, 9, 9] (by decide) ⟨[], by simp, rfl⟩ rfl
    (fun _ => Nat.zero_lt_succ 255)
    (fun _ => Nat.zero_lt_succ 255)).2.2.2.1

/-- C12 as stated fails (`DFU_TRANSFER_SIZE = 1024`): after a block was accepted,
`dfu_abort` leaves DFU state Idle, and a `dfu_clrstatus` leaves DFU state Error, with
the Flash SM still Erasing.  The copy of the download lies inside the buffer. -/
theorem flash_not_idle_outside_download :
    (∀ op ∈ [Op.download 0 4 0 4 [1, 2, 3, 4] [false, false], Op.abort, Op.clrstatus],
      copy_inside 1024 op) ∧
    (∃ s, run 1024 ⟨fun _ => 0, fun _ => 0⟩ (init_state 1024)
        [Op.download 0 4 0 4 [1, 2, 3, 4] [false, false], Op.abort] = some s ∧
      s.dfu_state = .dfuIDLE ∧ s.fl_state = .flsERASING) ∧
    (∃ s, run 1024 ⟨fun _ => 0, fun _ => 0⟩ (init_state 1024)
        [Op.download 0 4 0 4 [1, 2, 3, 4] [false, false], Op.clrstatus] = some s ∧
      s.dfu_state = .dfuERROR ∧ s.fl_state = .flsERASING) := by
  have hdl := dfu_download_complete 1024 (init_state 1024) 0 4 0 4 [1, 2, 3, 4] [false, false]
    (by decide) (by decide) (by decide) (by decide) (by decide) (by decide)
  refine ⟨by simp [copy_inside], ?_, ?_⟩
  · simp only [run, step, hdl]
    exact ⟨_, rfl, rfl, rfl⟩
  · simp only [run, step, hdl]
    exact ⟨_, rfl, rfl, rfl⟩

/-- C12, amended: in every state reached from the initial state by calls that store
nothing outside the buffer (`DFU_TRANSFER_SIZE` a multiple of 4), the Flash SM is Idle
whenever the DFU state is DownloadIdle, ManifestSync, Manifest or ManifestWaitReset;
no byte has been stored outside the buffer. -/
theorem reachable_flash_idle (T : Nat) (c : Codes) (s : State) (hT4 : T % 4 = 0)
    (hreach : ReachableInside T c s)
    (hst : s.dfu_state = .dfuDNLOAD_IDLE ∨ s.dfu_state = .dfuMANIFEST_SYNC ∨
      s.dfu_state = .dfuMANIFEST ∨ s.dfu_state = .dfuMANIFEST_WAIT_RESET) :
    s.fl_state = .flsIDLE ∧ s.stray = [] :=
  ⟨(reachable_inside_invariant T c s hT4 hreach).1.2.1 hst,
   (reachable_inside_invariant T c s hT4 hreach).2.1⟩

/-- Instance of the amended C12: the state after a download of length 0. -/
theorem reachable_flash_idle_witness :
    (set_state (init_state 8) .dfuMANIFEST_SYNC .OK).fl_state = .flsIDLE ∧
    (set_state (init_state 8) .dfuMANIFEST_SYNC .OK).stray = [] :=
  reachable_flash_idle 8 ⟨fun _ => 0, fun _ => 0⟩
    (set_state (init_state 8) .dfuMANIFEST_SYNC .OK) (by decide)
    ⟨[Op.download 0 0 0 0 [] [false]], by simp [copy_inside], rfl⟩ (Or.inr (Or.inl rfl))

/-- C13: in every state reached from the initial state by calls that store nothing
outside the buffer (`DFU_TRANSFER_SIZE` a multiple of 4), the status is OK unless the
state is Error, and every further such call that leaves a state other than Error
leaves the status OK; no byte has been stored outside the buffer, before or after the
call. -/
theorem reachable_status_ok (T : Nat) (c : Codes) (s : State) (hT4 : T % 4 = 0)
    (hreach : ReachableInside T c s) :
    (s.dfu_state ≠ .dfuERROR → s.dfu_status = .OK) ∧ s.stray = [] ∧
    (∀ (op : Op) (s' : State), copy_inside T op → step T c s op = some s' →
      (s'.dfu_state ≠ .dfuERROR → s'.dfu_status = .OK) ∧ s'.stray = []) := by
  obtain ⟨hinv, hstray, hlen⟩ := reachable_inside_invariant T c s hT4 hreach
  refine ⟨hinv.1, hstray, ?_⟩
  intro op s' hcopy hs
  have hbuf : T ≤ s.dfu_buffer.length := by
    rw [hlen]
    unfold buffer_bytes
    omega
  exact ⟨(step_invariant T c s s' op hinv hs).1,
    (step_inside T c s s' op hbuf hcopy hs).1.trans hstray⟩

/-- Instance of C13: `dfu_clrstatus` after a refused fragment leaves Idle/OK. -/
theorem reachable_status_ok_witness :
    (dfu_clrstatus (set_state (init_state 8) .dfuERROR .errADDRESS)).2.dfu_status = .OK :=
  ((reachable_status_ok 8 ⟨fun _ => 0, fun _ => 0⟩
    (set_state (init_state 8) .dfuERROR .errADDRESS) (by decide)
    ⟨[Op.download 0 4 3 4 [] []], by simp [copy_inside], rfl⟩).2.2
      Op.clrstatus _ trivial rfl).1 (by decide)

/-! ## Downloads and aborts during a flash cycle -/

/-- A fragment sent while an accepted block waits in the buffer: for any state in
which a block of 4 bytes can start, the block 1, 2, 3, 4 is accepted, and a following
fragment 9, 9 at offset 0 of a 4-byte block returns true and replaces the first two
bytes, the Flash SM being Erasing. -/
theorem fragment_overwrites_accepted_block (T : Nat) (s : State) (b0 b1 : Nat)
    (hT : 4 ≤ T) (hbuf : T ≤ s.dfu_buffer.length)
    (hst : s.dfu_state = .dfuIDLE ∨ s.dfu_state = .dfuDNLOAD_IDLE)
    (hfl : s.fl_state = .flsIDLE) :
    ∃ s1 s2, dfu_download T s b0 4 0 4 [1, 2, 3, 4] [false, false] = some (true, s1) ∧
      s1.dfu_state = .dfuDNLOAD_SYNC ∧ s1.fl_state = .flsERASING ∧
      s1.dfu_buffer.take 4 = [1, 2, 3, 4] ∧
      dfu_download T s1 b1 4 0 2 [9, 9] [false, false] = some (true, s2) ∧
      s2.dfu_state = .dfuDNLOAD_SYNC ∧ s2.fl_state = .flsERASING ∧
      s2.dfu_buffer.take 4 = [9, 9, 3, 4] := by
  have hdl := dfu_download_complete T s b0 4 0 4 [1, 2, 3, 4] [false, false]
    hT (by decide) (by decide) hst hfl (by decide)
  have hm1 := memcpy_buffer_inside s 0 [1, 2, 3, 4] 4 (by decide) (by omega) (by decide)
  obtain ⟨s1, hdl1, hs1⟩ : ∃ s1, dfu_download T s b0 4 0 4 [1, 2, 3, 4]
      [false, false] = some (true, s1) ∧ s1 = _ := ⟨_, hdl, rfl⟩
  have hb1 : s1.dfu_buffer = [1, 2, 3, 4] ++ s.dfu_buffer.drop 4 := by
    rw [hs1, set_state_dfu_buffer]
    show (memcpy_buffer s 0 [1, 2, 3, 4] 4).dfu_buffer = _
    rw [hm1]
    rfl
  have hdl2 := dfu_download_incomplete T s1 b1 4 0 2 [9, 9] [false, false]
    (by omega) (by decide)
  have hm2 := memcpy_buffer_inside s1 0 [9, 9] 2 (by decide)
    (by rw [hb1, List.length_append, List.length_drop]; simp only [List.length_cons,
      List.length_nil]; omega) (by decide)
  refine ⟨s1, _, hdl1, by rw [hs1]; rfl, by rw [hs1]; rfl, by rw [hb1]; rfl, hdl2,
    ?_, ?_, ?_⟩
  · rw [memcpy_buffer_dfu_state, hs1]
    rfl
  · rw [memcpy_buffer_fl_state, hs1]
    rfl
  · rw [hm2]
    show (List.take 0 s1.dfu_buffer ++ List.take 2 [9, 9] ++ List.drop (0 + 2) s1.dfu_buffer).take 4
      = _
    rw [hb1]
    rfl

/-- C14, at the failing input (`DFU_TRANSFER_SIZE = 1024`, from the initial state):
block 0 with bytes 1, 2, 3, 4 has been accepted and the Flash SM is Erasing, nothing
programmed yet.  The fragment `dfu_download(1, 4, 0, 2, [9, 9])` returns true and
leaves the buffer 9, 9, 3, 4, still in DownloadSync with the Flash SM Erasing. -/
theorem dfu_download_overwrites_block_in_flight :
    ∃ s1 s2, dfu_download 1024 (init_state 1024) 0 4 0 4 [1, 2, 3, 4] [false, false]
        = some (true, s1) ∧
      s1.dfu_state = .dfuDNLOAD_SYNC ∧ s1.fl_state = .flsERASING ∧
      s1.dfu_buffer.take 4 = [1, 2, 3, 4] ∧
      dfu_download 1024 s1 1 4 0 2 [9, 9] [false, false] = some (true, s2) ∧
      s2.dfu_state = .dfuDNLOAD_SYNC ∧ s2.fl_state = .flsERASING ∧
      s2.dfu_buffer.take 4 = [9, 9, 3, 4] :=
  fragment_overwrites_accepted_block 1024 (init_state 1024) 0 1 (by decide)
    (by rw [init_state_buffer_length]; decide) (Or.inl rfl) rfl

/-- With the Flash SM not Idle, a block-completing `dfu_download` that gets a reading
of the controller returns false. -/
theorem dfu_download_complete_refused (T : Nat) (s : State)
    (blockNum blockLength packetOffset packetLength : Nat) (data : List Byte)
    (busy : Bool) (hw1 : List Bool) (hfl : s.fl_state ≠ .flsIDLE)
    (hsum : (packetOffset + packetLength) % 2 ^ 32 = blockLength) :
    ∃ s3, dfu_download T s blockNum blockLength packetOffset packetLength data (busy :: hw1)
      = some (false, s3) := by
  unfold dfu_download
  by_cases hck : T < (packetOffset + packetLength) % 2 ^ 32 ∨
      blockLength < (packetOffset + packetLength) % 2 ^ 32
  · rw [if_pos hck]
    exact ⟨_, rfl⟩
  · rw [if_neg hck]
    simp only [hsum, ne_eq, not_true_eq_false, if_false, memcpy_buffer_dfu_state,
      memcpy_buffer_fl_state]
    by_cases hst : ¬ s.dfu_state = .dfuIDLE ∧ ¬ s.dfu_state = .dfuDNLOAD_IDLE
    · rw [if_pos hst]
      exact ⟨_, rfl⟩
    · rw [if_neg hst, if_pos (Or.inr hfl)]
      exact ⟨_, rfl⟩

/-- With the Flash SM not Idle and the DFU state Idle or Error, a call changes no
Flash SM field, issues no command and leaves the DFU state Idle or Error. -/
theorem step_wedged (T : Nat) (c : Codes) (s s' : State) (op : Op)
    (hfl : s.fl_state ≠ .flsIDLE)
    (hst : s.dfu_state = .dfuIDLE ∨ s.dfu_state = .dfuERROR)
    (hstep : step T c s op = some s') :
    s'.fl_state = s.fl_state ∧ s'.spi_cmds = s.spi_cmds ∧
    s'.fl_current_addr = s.fl_current_addr ∧
    s'.dfu_bytes_remaining = s.dfu_bytes_remaining ∧
    s'.dfu_buffer_offset = s.dfu_buffer_offset ∧
    s'.dfu_target_address = s.dfu_target_address ∧
    (s'.dfu_state = .dfuIDLE ∨ s'.dfu_state = .dfuERROR) := by
  cases op with
  | download blockNum blockLength packetOffset packetLength data hw =>
    simp only [step] at hstep
    rcases dfu_download_cases T s blockNum blockLength packetOffset packetLength data hw with
      hd | ⟨_, hd⟩ | hd | hd | ⟨_, hfl0, _, _⟩ | hd | ⟨_, hfl0, _, _, _⟩
    · rw [hd] at hstep
      simp only [Option.some.injEq] at hstep
      subst hstep
      simp
    · rw [hd] at hstep
      simp only [Option.some.injEq] at hstep
      subst hstep
      simpa using hst
    · rw [hd] at hstep
      simp only [Option.some.injEq] at hstep
      subst hstep
      simp
    · rw [hd] at hstep
      simp only [Option.some.injEq] at hstep
      subst hstep
      simp
    · exact absurd hfl0 hfl
    · rw [hd] at hstep
      cases hstep
    · exact absurd hfl0 hfl
  | getstatus status =>
    simp only [step, Option.some.injEq] at hstep
    subst hstep
    have : (dfu_getstatus c s status).2.1 = s := by
      show dfu_getstatus_step s = s
      unfold dfu_getstatus_step
      rcases hst with h | h <;> simp [h]
    rw [this]
    exact ⟨rfl, rfl, rfl, rfl, rfl, rfl, hst⟩
  | clrstatus =>
    simp only [step, Option.some.injEq] at hstep
    subst hstep
    unfold dfu_clrstatus
    rcases hst with h | h <;> simp [h]
  | abort =>
    simp only [step, Option.some.injEq] at hstep
    subst hstep
    simp [dfu_abort]
  | poll hw =>
    simp only [step] at hstep
    obtain ⟨_, _, _, _, _, k⟩ := dfu_poll_keeps s s' hw hstep
    rcases k with k | k | k
    · rw [k]
      exact ⟨rfl, rfl, rfl, rfl, rfl, rfl, hst⟩
    · rcases hst with h | h <;> rw [h] at k <;> cases k
    · rcases hst with h | h <;> rw [h] at k <;> cases k

/-- Sequences of calls, in the situation of `step_wedged`. -/
theorem run_wedged (T : Nat) (c : Codes) (ops : List Op) :
    ∀ (s s' : State), s.fl_state ≠ .flsIDLE →
      (s.dfu_state = .dfuIDLE ∨ s.dfu_state = .dfuERROR) →
      run T c s ops = some s' →
      s'.fl_state = s.fl_state ∧ s'.spi_cmds = s.spi_cmds ∧
      s'.fl_current_addr = s.fl_current_addr ∧
      s'.dfu_bytes_remaining = s.dfu_bytes_remaining ∧
      s'.dfu_buffer_offset = s.dfu_buffer_offset ∧
      s'.dfu_target_address = s.dfu_target_address ∧
      (s'.dfu_state = .dfuIDLE ∨ s'.dfu_state = .dfuERROR) := by
  induction ops with
  | nil =>
    intro s s' _ hst hrun
    simp only [run, Option.some.injEq] at hrun
    subst hrun
    exact ⟨rfl, rfl, rfl, rfl, rfl, rfl, hst⟩
  | cons op rest ih =>
    intro s s' hfl hst hrun
    simp only [run] at hrun
    cases hs : step T c s op with
    | none =>
      rw [hs] at hrun
      cases hrun
    | some s1 =>
      rw [hs] at hrun
      obtain ⟨a1, a2, a3, a4, a5, a6, a7⟩ := step_wedged T c s s1 op hfl hst hs
      obtain ⟨b1, b2, b3, b4, b5, b6, b7⟩ := ih s1 s' (by rw [a1]; exact hfl) a7 hrun
      exact ⟨b1.trans a1, b2.trans a2, b3.trans a3, b4.trans a4, b5.trans a5, b6.trans a6, b7⟩

/-- C19: `dfu_abort` returns true and leaves Idle/OK with every Flash SM field and the
command record as they were.  When it, or a `dfu_clrstatus` that fails, is called with
the Flash SM not Idle, then after every sequence of further calls that store nothing
outside the buffer the Flash SM state and its other fields are still the same, no
command has been issued, nothing has been stored outside the buffer, the DFU state is
neither DownloadSync nor ManifestSync (it is Idle or Error), and every
block-completing `dfu_download` (`packetOffset + packetLength = blockLength`, a 32-bit
value) that gets a reading of the controller returns false.  `DFU_TRANSFER_SIZE` is a
multiple of 4 and the buffer has its declared size. -/
theorem abort_wedges_flash (T : Nat) (c : Codes) (s s1 s2 : State) (ops : List Op)
    (hT4 : T % 4 = 0) (hbuf : s.dfu_buffer.length = buffer_bytes T)
    (hfl : s.fl_state ≠ .flsIDLE)
    (hs1 : s1 = (dfu_abort s).2 ∨ ((dfu_clrstatus s).1 = false ∧ s1 = (dfu_clrstatus s).2))
    (hcopy : ∀ op ∈ ops, copy_inside T op)
    (hrun : run T c s1 ops = some s2) :
    ((dfu_abort s).1 = true ∧ (dfu_abort s).2.dfu_state = .dfuIDLE ∧
      (dfu_abort s).2.dfu_status = .OK ∧ (dfu_abort s).2.fl_state = s.fl_state ∧
      (dfu_abort s).2.fl_current_addr = s.fl_current_addr ∧
      (dfu_abort s).2.dfu_bytes_remaining = s.dfu_bytes_remaining ∧
      (dfu_abort s).2.dfu_buffer_offset = s.dfu_buffer_offset ∧
      (dfu_abort s).2.dfu_target_address = s.dfu_target_address ∧
      (dfu_abort s).2.spi_cmds = s.spi_cmds) ∧
    s2.fl_state = s.fl_state ∧ s2.fl_state ≠ .flsIDLE ∧ s2.spi_cmds = s.spi_cmds ∧
    s2.fl_current_addr = s.fl_current_addr ∧
    s2.dfu_bytes_remaining = s.dfu_bytes_remaining ∧
    s2.dfu_buffer_offset = s.dfu_buffer_offset ∧
    s2.dfu_target_address = s.dfu_target_address ∧
    s2.stray = s.stray ∧
    (s2.dfu_state = .dfuIDLE ∨ s2.dfu_state = .dfuERROR) ∧
    s2.dfu_state ≠ .dfuDNLOAD_SYNC ∧ s2.dfu_state ≠ .dfuMANIFEST_SYNC ∧
    (∀ (blockNum blockLength packetOffset packetLength : Nat) (data : List Byte)
        (busy : Bool) (hw1 : List Bool),
      packetOffset + packetLength = blockLength → blockLength < 2 ^ 32 →
      ∃ s3, dfu_download T s2 blockNum blockLength packetOffset packetLength data
          (busy :: hw1) = some (false, s3) ∧
        s3.stray = s.stray) := by
  have h1 : s1.fl_state = s.fl_state ∧ s1.spi_cmds = s.spi_cmds ∧
      s1.fl_current_addr = s.fl_current_addr ∧
      s1.dfu_bytes_remaining = s.dfu_bytes_remaining ∧
      s1.dfu_buffer_offset = s.dfu_buffer_offset ∧
      s1.dfu_target_address = s.dfu_target_address ∧
      (s1.dfu_state = .dfuIDLE ∨ s1.dfu_state = .dfuERROR) := by
    rcases hs1 with h | ⟨hf, h⟩
    · rw [h]
      simp [dfu_abort]
    · rw [h]
      revert hf
      unfold dfu_clrstatus
      cases hst : s.dfu_state <;> simp
  have h1b : s1.stray = s.stray ∧ s1.dfu_buffer.length = s.dfu_buffer.length := by
    rcases hs1 with h | ⟨_, h⟩
    · rw [h]
      exact ⟨rfl, rfl⟩
    · rw [h]
      unfold dfu_clrstatus
      cases hst : s.dfu_state <;> exact ⟨rfl, rfl⟩
  have hT : T ≤ s.dfu_buffer.length := by
    rw [hbuf]
    unfold buffer_bytes
    omega
  obtain ⟨a1, a2, a3, a4, a5, a6, a7⟩ := h1
  obtain ⟨b1, b2, b3, b4, b5, b6, b7⟩ := run_wedged T c ops s1 s2 (by rw [a1]; exact hfl) a7 hrun
  obtain ⟨d1, d2⟩ := run_inside T c ops s1 s2 (by rw [h1b.2]; exact hT) hcopy hrun
  have hfl2 : s2.fl_state ≠ .flsIDLE := by
    rw [b1, a1]
    exact hfl
  have hstray2 : s2.stray = s.stray := d1.trans h1b.1
  refine ⟨⟨rfl, rfl, rfl, rfl, rfl, rfl, rfl, rfl, rfl⟩, b1.trans a1, hfl2, b2.trans a2,
    b3.trans a3, b4.trans a4, b5.trans a5, b6.trans a6, hstray2, b7, ?_, ?_, ?_⟩
  · rcases b7 with h | h <;> rw [h] <;> decide
  · rcases b7 with h | h <;> rw [h] <;> decide
  · intro blockNum blockLength packetOffset packetLength data busy hw1 hsum h32
    have hmod : (packetOffset + packetLength) % 2 ^ 32 = blockLength := by
      rw [hsum]
      exact Nat.mod_eq_of_lt h32
    obtain ⟨s3, h3⟩ := dfu_download_complete_refused T s2 blockNum blockLength packetOffset
      packetLength data busy hw1 hfl2 hmod
    refine ⟨s3, h3, ?_⟩
    have := (dfu_download_inside T s2 blockNum blockLength packetOffset packetLength data
      (busy :: hw1) (false, s3) (by rw [d2, h1b.2]; exact hT)
      (Or.inr (Or.inr (by omega))) h3).1
    exact this.trans hstray2

/-- Instance of C19: an abort in DownloadSync with the Flash SM Erasing, then a poll
with the controller idle; the Flash SM is still Erasing. -/
theorem abort_wedges_flash_witness :
    (dfu_abort { init_state 8 with fl_state := .flsERASING, dfu_state := .dfuDNLOAD_SYNC }).2.fl_state
      = .flsERASING ∧
    run 8 ⟨fun _ => 0, fun _ => 0⟩
        (dfu_abort { init_state 8 with fl_state := .flsERASING, dfu_state := .dfuDNLOAD_SYNC }).2
        [Op.poll [false, false]]
      = some
        (dfu_abort { init_state 8 with fl_state := .flsERASING, dfu_state := .dfuDNLOAD_SYNC }).2 :=
  ⟨(abort_wedges_flash 8 ⟨fun _ => 0, fun _ => 0⟩
      { init_state 8 with fl_state := .flsERASING, dfu_state := .dfuDNLOAD_SYNC }
      (dfu_abort { init_state 8 with fl_state := .flsERASING, dfu_state := .dfuDNLOAD_SYNC }).2
      (dfu_abort { init_state 8 with fl_state := .flsERASING, dfu_state := .dfuDNLOAD_SYNC }).2
      [Op.poll [false, false]] (by decide) (by decide) (by decide) (Or.inl rfl)
      (by simp [copy_inside]) rfl).2.1,
   rfl⟩

end Dfu
